import Mathlib

/-!
Verification development for the xd-readline line editor
(src/src/xd_readline.c, src/include/xd_readline.h).

The C code is shallowly embedded as follows.

* Machine integers are modelled as `Nat` where the C code keeps them
  non-negative, and as `Int` (with `Int.tdiv` / `Int.tmod`, the C99
  truncated division) for the terminal cursor row/column arithmetic,
  which can go negative in intermediate computations.
* The input buffer is modelled at two levels:
  - a content-level model (`XdState.inputBuffer : List Nat` holding
    exactly the bytes `B[0..L-1]`, with `L = inputBuffer.length`), used
    for the functional claims; and
  - an array-level model (`ABuf`, a list of length `C` standing for the
    whole allocation), in which every single array read and write is
    bounds-checked in the `Option` monad, used for the memory-safety
    claim.
* `realloc` success is an environmental condition; every function that
  may call `realloc` takes an `allocOk : Bool` oracle telling whether
  that call succeeds, exactly mirroring the C error paths.
* Bytes written to the terminal are recorded as a trace of abstract
  output items (`OutItem`); a formatted ANSI sequence becomes one item.
* Reading from the terminal is modelled by an input byte list; a
  zero-byte `read` (end of file) is the exhausted list.  Signals
  (`SIGWINCH`) are environmental and never delivered in this model, so
  the resize branch of the main loop is omitted.
* The main read loop is given explicit fuel; `input.length + 1` steps
  always suffice (proved below), and a ghost `exitReason` field records
  which exit path ended the read.
-/

/-- Compile-time history capacity `XD_HISTORY_MAX` from xd_readline.h. -/
def XD_HISTORY_MAX : Nat := 4

/-- `LINE_MAX` from limits.h as used for the baseline buffer capacity. -/
def LINE_MAX : Nat := 2048

/-- One abstract item written to the terminal.  `raw` is a plain
`xd_tty_write`; the others stand for the formatted ANSI escape
sequences emitted through `xd_tty_write_ansii_sequence`. -/
inductive OutItem where
  | raw (bytes : List Nat)
  | setCol (n : Int)
  | moveUp (n : Int)
  | moveDown (n : Int)
  | clearLine
  | clearScreen
  | homeCursor
deriving Repr, DecidableEq

/-- A history entry (`xd_history_entry_t`): the stored bytes and the
capacity of its allocation.  The C `length` field always equals the
number of stored bytes, so it is represented by `str.length`. -/
structure HistEntry where
  str : List Nat
  capacity : Nat
deriving Repr, DecidableEq

/-- Ghost record of which exit path ended an `xd_readline` call. -/
inductive ExitReason where
  | submit
  | eotEmpty
  | eofRead
  | allocFail
  | fuelOut
deriving Repr, DecidableEq

/-- The process-wide editor state: the static variables of
xd_readline.c, plus the ghost `exitReason` and the terminal output
trace. -/
structure XdState where
  /-- contents `B[0..L-1]` of `xd_input_buffer`; `L = inputBuffer.length` -/
  inputBuffer : List Nat
  /-- `xd_input_capacity` -/
  inputCapacity : Nat
  /-- `xd_input_cursor` -/
  inputCursor : Nat
  /-- `xd_readline_redraw` -/
  redraw : Bool
  /-- `xd_readline_finished` -/
  finished : Bool
  /-- whether `xd_readline_return` is `NULL` -/
  retNull : Bool
  /-- ghost: which exit path ended the read -/
  exitReason : Option ExitReason
  /-- the five entries of `xd_history` (indices `0..XD_HISTORY_MAX`) -/
  history : List HistEntry
  /-- `xd_history_nav_idx` -/
  navIdx : Nat
  /-- `xd_history_start_idx` -/
  startIdx : Nat
  /-- `xd_history_end_idx` -/
  endIdx : Nat
  /-- `xd_history_length` -/
  histLen : Nat
  /-- `xd_tty_win_width` -/
  winWidth : Nat
  /-- `xd_tty_cursor_row` (a C int; 1-based) -/
  cursorRow : Int
  /-- `xd_tty_cursor_col` (a C int; 1-based) -/
  cursorCol : Int
  /-- `xd_tty_chars_count` -/
  charsCount : Nat
  /-- bytes of `xd_readline_prompt` -/
  prompt : List Nat
  /-- `xd_readline_prompt_length` -/
  promptLength : Nat
  /-- trace of everything written to the terminal -/
  output : List OutItem
deriving Repr, DecidableEq

/-- `xd_history[i]`; out-of-range defaults never arise because the
history list always has `XD_HISTORY_MAX + 1` entries. -/
def hGet (h : List HistEntry) (i : Nat) : HistEntry :=
  h.getD i ⟨[], LINE_MAX⟩

/-- Cursor flat position `F = (R-1)*W + (K-1)` (`cursor_flat_pos`). -/
def flatPos (s : XdState) : Int :=
  (s.cursorRow - 1) * (s.winWidth : Int) + s.cursorCol - 1

/-- `xd_tty_write`: write raw bytes to the terminal (no-op when the
length is not positive). -/
def xd_tty_write (data : List Nat) (s : XdState) : XdState :=
  if data.length = 0 then s
  else {s with output := s.output ++ [OutItem.raw data]}

/-- `xd_tty_bell`: write the single BEL byte. -/
def xd_tty_bell (s : XdState) : XdState :=
  xd_tty_write [7] s

/-- `xd_tty_write_track`: write bytes while updating `chars_count` and
the tracked cursor position; if the cursor lands on column 1 a space is
written to force the physical wrap, then the column is re-set. -/
def xd_tty_write_track (data : List Nat) (s : XdState) : XdState :=
  if data.length = 0 then s
  else
    let s1 := xd_tty_write data s
    let s2 := {s1 with charsCount := s1.charsCount + data.length}
    let flat : Int := (s2.cursorRow - 1) * (s2.winWidth : Int) +
        s2.cursorCol + (data.length : Int) - 1
    let s3 := {s2 with cursorRow := flat.tdiv (s2.winWidth : Int) + 1,
                       cursorCol := flat.tmod (s2.winWidth : Int) + 1}
    let s4 := if s3.cursorCol = 1 then xd_tty_write [32] s3 else s3
    {s4 with output := s4.output ++ [OutItem.setCol s4.cursorCol]}

/-- `xd_tty_cursor_move_left_wrap`. -/
def xd_tty_cursor_move_left_wrap (n : Int) (s : XdState) : XdState :=
  if n = 0 then s
  else
    let flat : Int := (s.cursorRow - 1) * (s.winWidth : Int) + s.cursorCol - n - 1
    let newRow := flat.tdiv (s.winWidth : Int) + 1
    let newCol := flat.tmod (s.winWidth : Int) + 1
    let s1 := if newRow ≠ s.cursorRow then
        {s with output := s.output ++ [OutItem.moveUp (s.cursorRow - newRow)],
                cursorRow := newRow}
      else s
    {s1 with output := s1.output ++ [OutItem.setCol newCol], cursorCol := newCol}

/-- `xd_tty_cursor_move_right_wrap`. -/
def xd_tty_cursor_move_right_wrap (n : Int) (s : XdState) : XdState :=
  if n = 0 then s
  else
    let flat : Int := (s.cursorRow - 1) * (s.winWidth : Int) + s.cursorCol + n - 1
    let newRow := flat.tdiv (s.winWidth : Int) + 1
    let newCol := flat.tmod (s.winWidth : Int) + 1
    let s1 := if newRow ≠ s.cursorRow then
        {s with output := s.output ++ [OutItem.moveDown (newRow - s.cursorRow)],
                cursorRow := newRow}
      else s
    {s1 with output := s1.output ++ [OutItem.setCol newCol], cursorCol := newCol}

/-- The clear-rows loop of `xd_tty_input_clear`: `rows` iterations of
clear-current-line / column 1, moving up one row between iterations. -/
def clearRowsLoop : Nat → XdState → XdState
  | 0, s => s
  | Nat.succ k, s =>
    let s1 := {s with output := s.output ++ [OutItem.clearLine], cursorCol := 1}
    match k with
    | 0 => s1
    | Nat.succ _ =>
        clearRowsLoop k
          {s1 with output := s1.output ++ [OutItem.moveUp 1],
                   cursorRow := s1.cursorRow - 1}

/-- `xd_tty_input_clear`: move to the end of the rendered region, then
clear its rows bottom-up and reset `chars_count`. -/
def xd_tty_input_clear (s : XdState) : XdState :=
  let s1 := xd_tty_cursor_move_right_wrap ((s.charsCount : Int) - flatPos s) s
  let rows := (s1.charsCount + s1.winWidth) / s1.winWidth
  let s2 := clearRowsLoop rows s1
  {s2 with charsCount := 0}

/-- `xd_tty_input_redraw`: clear, rewrite prompt and buffer, replace the
cursor at the logical position. -/
def xd_tty_input_redraw (s : XdState) : XdState :=
  let s1 := xd_tty_input_clear s
  let s2 := xd_tty_write_track s1.prompt s1
  let s3 := xd_tty_write_track s2.inputBuffer s2
  xd_tty_cursor_move_left_wrap ((s3.inputBuffer.length : Int) - s3.inputCursor) s3

/-- ASCII alphanumeric classification (`isalnum` in the C locale). -/
def xd_isalnum (c : Nat) : Bool :=
  (48 ≤ c && c ≤ 57) || (65 ≤ c && c ≤ 90) || (97 ≤ c && c ≤ 122)

/-- glibc `isprint` in the C locale, on a byte read from the terminal.
Bytes `0x80..0xFF` (negative as signed `char`) classify as neither
printable nor control. -/
def xd_isprint (c : Nat) : Bool :=
  32 ≤ c && c ≤ 126

/-- glibc `iscntrl` in the C locale, on a byte read from the terminal. -/
def xd_iscntrl (c : Nat) : Bool :=
  c < 32 || c = 127

/-- `xd_input_buffer_insert`: shift `B[P..L-1]` one to the right, store
the byte at `P`, advance cursor and length (the C code also writes the
NUL sentinel at the new `L`; the content model keeps only `B[0..L-1]`,
the sentinel is tracked in the array-level model below). -/
def xd_input_buffer_insert (chr : Nat) (s : XdState) : XdState :=
  {s with inputBuffer := s.inputBuffer.take s.inputCursor ++ [chr] ++
            s.inputBuffer.drop s.inputCursor,
          inputCursor := s.inputCursor + 1}

/-- `xd_input_buffer_remove_before_cursor`: if `P ≥ n`, drop the `n`
bytes before the cursor (shift `B[P..L-1]` left by `n`). -/
def xd_input_buffer_remove_before_cursor (n : Nat) (s : XdState) : XdState :=
  if s.inputCursor < n then s
  else
    {s with inputBuffer := s.inputBuffer.take (s.inputCursor - n) ++
              s.inputBuffer.drop s.inputCursor,
            inputCursor := s.inputCursor - n}

/-- `xd_input_buffer_remove_from_cursor`: if `L - P ≥ n`, drop the `n`
bytes starting at the cursor (shift `B[P+n..L-1]` left by `n`). -/
def xd_input_buffer_remove_from_cursor (n : Nat) (s : XdState) : XdState :=
  if s.inputBuffer.length - s.inputCursor < n then s
  else
    {s with inputBuffer := s.inputBuffer.take s.inputCursor ++
              s.inputBuffer.drop (s.inputCursor + n)}

/-- One of the `while (idx < len && p(B[idx])) idx++` loops of the
word-boundary queries. -/
def xd_word_scan (p : Nat → Bool) (B : List Nat) (idx : Nat) : Nat :=
  if idx < B.length then
    if p (B.getD idx 0) then xd_word_scan p B (idx + 1) else idx
  else idx
termination_by B.length - idx

/-- One of the `while (idx > 0 && p(B[idx-1])) idx--` loops of the
word-boundary queries. -/
def xd_word_scan_back (p : Nat → Bool) (B : List Nat) (idx : Nat) : Nat :=
  if 0 < idx then
    if p (B.getD (idx - 1) 0) then xd_word_scan_back p B (idx - 1) else idx
  else idx
termination_by idx

/-- `xd_input_buffer_get_current_word_end`: skip non-alphanumerics, then
skip the word. -/
def xd_input_buffer_get_current_word_end (s : XdState) : Nat :=
  xd_word_scan xd_isalnum s.inputBuffer
    (xd_word_scan (fun c => !xd_isalnum c) s.inputBuffer s.inputCursor)

/-- `xd_input_buffer_get_current_word_start`: skip non-alphanumerics
leftwards, then skip the word leftwards. -/
def xd_input_buffer_get_current_word_start (s : XdState) : Nat :=
  xd_word_scan_back xd_isalnum s.inputBuffer
    (xd_word_scan_back (fun c => !xd_isalnum c) s.inputBuffer s.inputCursor)

/-- Round a requested size up to the next multiple of `LINE_MAX`
(the capacity policy of the history/buffer growth paths). -/
def roundUpLineMax (n : Nat) : Nat :=
  if n % LINE_MAX = 0 then n else n + (LINE_MAX - n % LINE_MAX)

/-- `xd_input_buffer_save_to_history`: copy the input buffer into the
history entry at `nav`, growing that entry's allocation if needed;
on allocation failure the state is left unchanged. -/
def xd_input_buffer_save_to_history (allocOk : Bool) (s : XdState) : XdState :=
  let e := hGet s.history s.navIdx
  if s.inputBuffer.length > e.capacity - 1 then
    if allocOk then
      {s with history := s.history.set s.navIdx
                ⟨s.inputBuffer, roundUpLineMax (s.inputBuffer.length + 1)⟩}
    else s
  else
    {s with history := s.history.set s.navIdx ⟨s.inputBuffer, e.capacity⟩}

/-- `xd_input_buffer_load_from_history`: copy the history entry at `nav`
into the input buffer (growing it if needed), set `L` to the entry
length and `P = L`; on allocation failure the state is left unchanged. -/
def xd_input_buffer_load_from_history (allocOk : Bool) (s : XdState) : XdState :=
  let e := hGet s.history s.navIdx
  if e.str.length > s.inputCapacity - 1 then
    if allocOk then
      {s with inputCapacity := roundUpLineMax (e.str.length + 1),
              inputBuffer := e.str, inputCursor := e.str.length}
    else s
  else
    {s with inputBuffer := e.str, inputCursor := e.str.length}

/-- `xd_input_handle_printable`: insert at the cursor; when inserting at
the end write the byte directly, otherwise request a redraw. -/
def xd_input_handle_printable (chr : Nat) (s : XdState) : XdState :=
  let s1 := xd_input_buffer_insert chr s
  if s1.inputCursor = s1.inputBuffer.length then xd_tty_write_track [chr] s1
  else {s1 with redraw := true}

/-- `xd_input_handle_ctrl_a`: move the cursor to the start of the line. -/
def xd_input_handle_ctrl_a (s : XdState) : XdState :=
  if s.inputCursor = 0 then s
  else
    let s1 := xd_tty_cursor_move_left_wrap (s.inputCursor : Int) s
    {s1 with inputCursor := 0}

/-- `xd_input_handle_ctrl_b`: move the cursor one cell left. -/
def xd_input_handle_ctrl_b (s : XdState) : XdState :=
  if s.inputCursor = 0 then xd_tty_bell s
  else
    let s1 := xd_tty_cursor_move_left_wrap 1 s
    {s1 with inputCursor := s1.inputCursor - 1}

/-- `xd_input_handle_ctrl_e`: move the cursor to the end of the line. -/
def xd_input_handle_ctrl_e (s : XdState) : XdState :=
  if s.inputCursor = s.inputBuffer.length then s
  else
    let s1 := xd_tty_cursor_move_right_wrap
        ((s.inputBuffer.length : Int) - s.inputCursor) s
    {s1 with inputCursor := s1.inputBuffer.length}

/-- `xd_input_handle_ctrl_f`: move the cursor one cell right. -/
def xd_input_handle_ctrl_f (s : XdState) : XdState :=
  if s.inputCursor = s.inputBuffer.length then xd_tty_bell s
  else
    let s1 := xd_tty_cursor_move_right_wrap 1 s
    {s1 with inputCursor := s1.inputCursor + 1}

/-- `xd_input_handle_ctrl_g`: ring the bell. -/
def xd_input_handle_ctrl_g (s : XdState) : XdState :=
  xd_tty_bell s

/-- `xd_input_handle_ctrl_h`: remove the byte before the cursor. -/
def xd_input_handle_ctrl_h (s : XdState) : XdState :=
  if s.inputCursor = 0 then xd_tty_bell s
  else {xd_input_buffer_remove_before_cursor 1 s with redraw := true}

/-- `xd_input_handle_ctrl_k`: remove everything from the cursor on. -/
def xd_input_handle_ctrl_k (s : XdState) : XdState :=
  if s.inputCursor = s.inputBuffer.length then xd_tty_bell s
  else
    {xd_input_buffer_remove_from_cursor
        (s.inputBuffer.length - s.inputCursor) s with redraw := true}

/-- `xd_input_handle_ctrl_l`: clear the screen, home the cursor, request
a redraw. -/
def xd_input_handle_ctrl_l (s : XdState) : XdState :=
  {s with output := s.output ++ [OutItem.clearScreen, OutItem.homeCursor],
          cursorRow := 1, cursorCol := 1, redraw := true}

/-- `xd_input_handle_ctrl_u`: remove everything before the cursor. -/
def xd_input_handle_ctrl_u (s : XdState) : XdState :=
  if s.inputCursor = 0 then xd_tty_bell s
  else
    {xd_input_buffer_remove_before_cursor s.inputCursor s with redraw := true}

/-- `xd_input_handle_backspace` delegates to Ctrl-H. -/
def xd_input_handle_backspace (s : XdState) : XdState :=
  xd_input_handle_ctrl_h s

/-- `xd_input_handle_enter`: append LF to the buffer, mark the read
finished, move the terminal cursor past the trailing text. -/
def xd_input_handle_enter (s : XdState) : XdState :=
  let s1 := {s with inputBuffer := s.inputBuffer ++ [10],
                    finished := true, exitReason := some ExitReason.submit}
  xd_tty_cursor_move_right_wrap
    ((s1.inputBuffer.length : Int) - s1.inputCursor - 1) s1

/-- `xd_input_handle_delete`: remove the byte at the cursor. -/
def xd_input_handle_delete (s : XdState) : XdState :=
  if s.inputCursor = s.inputBuffer.length then xd_tty_bell s
  else {xd_input_buffer_remove_from_cursor 1 s with redraw := true}

/-- `xd_input_handle_ctrl_d`: on an empty buffer finish the read with a
`NULL` result, otherwise perform the Delete action. -/
def xd_input_handle_ctrl_d (s : XdState) : XdState :=
  if s.inputBuffer.length = 0 then
    {s with finished := true, retNull := true,
            exitReason := some ExitReason.eotEmpty}
  else xd_input_handle_delete s

/-- `xd_input_handle_up_arrow` (history-prev): unless at the oldest
entry, save the buffer into the current navigation slot, step `nav`
backwards (from the scratch slot `H` to `end`), and load the new slot. -/
def xd_input_handle_up_arrow (allocOk : Bool) (s : XdState) : XdState :=
  if s.histLen = 0 ∨ s.navIdx = s.startIdx then xd_tty_bell s
  else
    let s1 := xd_input_buffer_save_to_history allocOk s
    let s2 :=
      if s1.navIdx = XD_HISTORY_MAX then {s1 with navIdx := s1.endIdx}
      else
        -- (nav - 1 + XD_HISTORY_MAX) % XD_HISTORY_MAX in C int arithmetic
        {s1 with navIdx := (s1.navIdx + XD_HISTORY_MAX - 1) % XD_HISTORY_MAX}
    let s3 := xd_input_buffer_load_from_history allocOk s2
    {s3 with redraw := true}

/-- `xd_input_handle_down_arrow` (history-next): unless at the scratch
slot, save the buffer into the current navigation slot, step `nav`
forwards (from `end` to the scratch slot `H`), and load the new slot. -/
def xd_input_handle_down_arrow (allocOk : Bool) (s : XdState) : XdState :=
  if s.histLen = 0 ∨ s.navIdx = XD_HISTORY_MAX then xd_tty_bell s
  else
    let s1 := xd_input_buffer_save_to_history allocOk s
    let s2 :=
      if s1.navIdx = s1.endIdx then {s1 with navIdx := XD_HISTORY_MAX}
      else {s1 with navIdx := (s1.navIdx + 1) % XD_HISTORY_MAX}
    let s3 := xd_input_buffer_load_from_history allocOk s2
    {s3 with redraw := true}

/-- `xd_input_handle_alt_f`: move the cursor to the end of the current
word. -/
def xd_input_handle_alt_f (s : XdState) : XdState :=
  if s.inputCursor = s.inputBuffer.length then xd_tty_bell s
  else
    let idx := xd_input_buffer_get_current_word_end s
    let s1 := xd_tty_cursor_move_right_wrap ((idx : Int) - s.inputCursor) s
    {s1 with inputCursor := idx}

/-- `xd_input_handle_alt_b`: move the cursor to the start of the current
word. -/
def xd_input_handle_alt_b (s : XdState) : XdState :=
  if s.inputCursor = 0 then xd_tty_bell s
  else
    let idx := xd_input_buffer_get_current_word_start s
    let s1 := xd_tty_cursor_move_left_wrap ((s.inputCursor : Int) - idx) s
    {s1 with inputCursor := idx}

/-- `xd_input_handle_alt_d`: delete to the end of the current word. -/
def xd_input_handle_alt_d (s : XdState) : XdState :=
  if s.inputCursor = s.inputBuffer.length then xd_tty_bell s
  else
    let idx := xd_input_buffer_get_current_word_end s
    {xd_input_buffer_remove_from_cursor (idx - s.inputCursor) s with
        redraw := true}

/-- `xd_input_handle_alt_backspace`: delete to the start of the current
word. -/
def xd_input_handle_alt_backspace (s : XdState) : XdState :=
  if s.inputCursor = 0 then xd_tty_bell s
  else
    let idx := xd_input_buffer_get_current_word_start s
    {xd_input_buffer_remove_before_cursor (s.inputCursor - idx) s with
        redraw := true}

/-- The editing actions reachable through the escape-sequence binding
table (`xd_esc_seq_bindings` handlers). -/
inductive EscAction where
  | upArrow
  | downArrow
  | rightArrow
  | leftArrow
  | homeKey
  | endKey
  | deleteKey
  | altF
  | altB
  | altD
  | altBackspace
  | ctrlRightArrow
  | ctrlLeftArrow
  | ctrlDelete
deriving Repr, DecidableEq

/-- `xd_input_handle_right_arrow` delegates to Ctrl-F,
`xd_input_handle_left_arrow` to Ctrl-B, `xd_input_handle_home` to
Ctrl-A, `xd_input_handle_end` to Ctrl-E, and the Ctrl-modified
bindings to their Alt counterparts; this dispatches an `EscAction` to
the corresponding handler. -/
def applyEscAction (allocOk : Bool) : EscAction → XdState → XdState
  | EscAction.upArrow => xd_input_handle_up_arrow allocOk
  | EscAction.downArrow => xd_input_handle_down_arrow allocOk
  | EscAction.rightArrow => xd_input_handle_ctrl_f
  | EscAction.leftArrow => xd_input_handle_ctrl_b
  | EscAction.homeKey => xd_input_handle_ctrl_a
  | EscAction.endKey => xd_input_handle_ctrl_e
  | EscAction.deleteKey => xd_input_handle_delete
  | EscAction.altF => xd_input_handle_alt_f
  | EscAction.altB => xd_input_handle_alt_b
  | EscAction.altD => xd_input_handle_alt_d
  | EscAction.altBackspace => xd_input_handle_alt_backspace
  | EscAction.ctrlRightArrow => xd_input_handle_alt_f
  | EscAction.ctrlLeftArrow => xd_input_handle_alt_b
  | EscAction.ctrlDelete => xd_input_handle_alt_d

/-- One entry of the escape-sequence binding table: the byte sequence
and the action its handler performs. -/
abbrev EscBinding := List Nat × EscAction

/-- `xd_esc_seq_bindings`: the binding table, with the escape sequences
spelled out as byte lists (27 = ESC, 91 = `[`, 126 = `~`, 127 = DEL). -/
def xd_esc_seq_bindings : List EscBinding :=
  [([27, 91, 65], EscAction.upArrow),
   ([27, 91, 66], EscAction.downArrow),
   ([27, 91, 67], EscAction.rightArrow),
   ([27, 91, 68], EscAction.leftArrow),
   ([27, 91, 72], EscAction.homeKey),
   ([27, 91, 70], EscAction.endKey),
   ([27, 91, 51, 126], EscAction.deleteKey),
   ([27, 102], EscAction.altF),
   ([27, 98], EscAction.altB),
   ([27, 100], EscAction.altD),
   ([27, 127], EscAction.altBackspace),
   ([27, 91, 49, 59, 53, 67], EscAction.ctrlRightArrow),
   ([27, 91, 49, 59, 53, 68], EscAction.ctrlLeftArrow),
   ([27, 91, 51, 59, 53, 126], EscAction.ctrlDelete)]

/-- The scan over the binding table done for each newly read byte of an
escape sequence: returns the handler of the first exact match (the C
code returns from inside the loop) together with the
`is_valid_prefix` flag.  The C comparisons are `strcmp`/`strncmp` on
the NUL-terminated staging buffer; since no binding sequence contains
an interior NUL, they coincide with list equality and the list-prefix
test used here. -/
def xd_esc_scan : List EscBinding → List Nat → Option EscAction × Bool
  | [], _ => (none, false)
  | b :: rest, staged =>
    if staged = b.1 then (some b.2, true)
    else
      let r := xd_esc_scan rest staged
      (r.1, r.2 || staged.isPrefixOf b.1)

/-- Outcome of the escape-sequence read loop. -/
inductive EscOutcome where
  /-- an exact binding match was found and its handler is to run -/
  | invoked (a : EscAction)
  /-- the staged bytes stopped matching (or the staging buffer filled) -/
  | discardedSeq
  /-- `read` returned no byte mid-sequence -/
  | abortedRead
deriving Repr, DecidableEq

/-- The read loop of `xd_input_handle_escape_sequence`: starting from
the staged bytes (initially just ESC), read bytes while the staging
buffer has room (`idx < XD_SMALL_BUFFER_SIZE - 1 = 31`); on each byte,
an exact table match resolves to its action, a prefix match continues,
anything else discards the sequence.  Returns the outcome and the
unconsumed input. -/
def xd_esc_loop (table : List EscBinding) (staged : List Nat) :
    List Nat → EscOutcome × List Nat
  | [] =>
    if staged.length < 31 then (EscOutcome.abortedRead, [])
    else (EscOutcome.discardedSeq, [])
  | c :: rest =>
    if staged.length < 31 then
      let staged' := staged ++ [c]
      let r := xd_esc_scan table staged'
      match r.1 with
      | some a => (EscOutcome.invoked a, rest)
      | none =>
        if r.2 then xd_esc_loop table staged' rest
        else (EscOutcome.discardedSeq, rest)
    else (EscOutcome.discardedSeq, c :: rest)

/-- `xd_input_handle_escape_sequence`: run the decoder on the input
following the ESC byte and apply the matched handler, if any. -/
def xd_input_handle_escape_sequence (allocOk : Bool) (s : XdState)
    (input : List Nat) : XdState × List Nat :=
  let r := xd_esc_loop xd_esc_seq_bindings [27] input
  match r.1 with
  | EscOutcome.invoked a => (applyEscAction allocOk a s, r.2)
  | _ => (s, r.2)

/-- `xd_input_handle_control`: the `switch` over the bound control
bytes; unbound control bytes fall through to the default and do
nothing. -/
def xd_input_handle_control (allocOk : Bool) (chr : Nat) (s : XdState)
    (input : List Nat) : XdState × List Nat :=
  if chr = 1 then (xd_input_handle_ctrl_a s, input)
  else if chr = 2 then (xd_input_handle_ctrl_b s, input)
  else if chr = 4 then (xd_input_handle_ctrl_d s, input)
  else if chr = 5 then (xd_input_handle_ctrl_e s, input)
  else if chr = 6 then (xd_input_handle_ctrl_f s, input)
  else if chr = 7 then (xd_input_handle_ctrl_g s, input)
  else if chr = 8 then (xd_input_handle_ctrl_h s, input)
  else if chr = 10 then (xd_input_handle_enter s, input)
  else if chr = 11 then (xd_input_handle_ctrl_k s, input)
  else if chr = 12 then (xd_input_handle_ctrl_l s, input)
  else if chr = 21 then (xd_input_handle_ctrl_u s, input)
  else if chr = 27 then xd_input_handle_escape_sequence allocOk s input
  else if chr = 127 then (xd_input_handle_backspace s, input)
  else (s, input)

/-- `xd_input_handler`: classify the byte and dispatch (printable
insertion, bound control byte, or nothing). -/
def xd_input_handler (allocOk : Bool) (chr : Nat) (s : XdState)
    (input : List Nat) : XdState × List Nat :=
  if xd_isprint chr then (xd_input_handle_printable chr s, input)
  else if xd_iscntrl chr then xd_input_handle_control allocOk chr s input
  else (s, input)

/-- The `while (!xd_readline_finished)` loop of `xd_readline`, with
explicit fuel (`input.length + 1` always suffices, see
`xdLoop_no_fuelOut`): reconcile the redraw flag, grow the input buffer
at capacity (breaking out on allocation failure), read one byte (EOF
finishes with a `NULL` result), dispatch it. -/
def xdLoop (allocOk : Bool) : Nat → XdState → List Nat → XdState
  | 0, s, _ =>
    -- artificial fuel exhaustion (never reached with fuel > input.length);
    -- `finished := true` records that the loop has exited
    if s.finished then s
    else {s with finished := true, exitReason := some ExitReason.fuelOut}
  | Nat.succ fuel, s, input =>
    if s.finished then s
    else
      let s1 := if s.redraw then {xd_tty_input_redraw s with redraw := false}
                else s
      if s1.inputBuffer.length = s1.inputCapacity - 1 ∧ ¬allocOk then
        -- the C `break` on realloc failure: the loop exits, the return
        -- pointer still holds the accumulated buffer
        {s1 with finished := true, exitReason := some ExitReason.allocFail}
      else
        let s2 := if s1.inputBuffer.length = s1.inputCapacity - 1 then
            {s1 with inputCapacity := s1.inputCapacity * 2}
          else s1
        match input with
        | [] =>
          {s2 with finished := true, retNull := true,
                   exitReason := some ExitReason.eofRead}
        | c :: rest =>
          let p := xd_input_handler allocOk c s2 rest
          xdLoop allocOk fuel p.1 p.2

/-- The reset preamble of `xd_readline`: prompt length, empty buffer,
flags, screen model, navigation index. -/
def xd_readline_reset (s : XdState) : XdState :=
  {s with promptLength := s.prompt.length,
          inputCursor := 0, inputBuffer := [],
          redraw := true, retNull := false, finished := false,
          exitReason := none,
          cursorRow := 1, cursorCol := 1, charsCount := 0,
          navIdx := XD_HISTORY_MAX}

/-- `xd_readline`: reset, run the loop on the given terminal input,
write a final LF when the cursor did not end on column 1, and return
the submitted buffer contents (`none` models a `NULL` return);
the final state is returned alongside. -/
def xd_readline (allocOk : Bool) (s : XdState) (input : List Nat) :
    Option (List Nat) × XdState :=
  let sF := xdLoop allocOk (input.length + 1) (xd_readline_reset s) input
  let sF := if sF.cursorCol ≠ 1 then xd_tty_write [10] sF else sF
  (if sF.retNull then none else some sF.inputBuffer, sF)

/-- Drop one trailing LF, as `xd_readline_history_add` does before
storing (`str_length--` when the last byte is LF, then `memcpy` of
`str_length` bytes). -/
def stripTrailingLF (l : List Nat) : List Nat :=
  if 0 < l.length ∧ l.getLast? = some 10 then l.dropLast else l

/-- `xd_readline_history_clear`. -/
def xd_readline_history_clear (s : XdState) : XdState :=
  {s with history := s.history.map (fun e => ⟨[], e.capacity⟩),
          navIdx := XD_HISTORY_MAX, startIdx := 0,
          endIdx := XD_HISTORY_MAX - 1, histLen := 0}

/-- `xd_readline_history_add`: `none` models a `NULL` argument.  Strips
one trailing LF, grows the target slot `(end+1) % H` if needed
(failure returns -1 with nothing changed), then commits: bump `len`
or wrap `start`, advance `end`, store the bytes. -/
def xd_readline_history_add (allocOk : Bool) (str : Option (List Nat))
    (s : XdState) : Int × XdState :=
  match str with
  | none => (-1, s)
  | some str =>
    let stripped := stripTrailingLF str
    let newEndIdx := (s.endIdx + 1) % XD_HISTORY_MAX
    let e := hGet s.history newEndIdx
    if stripped.length > e.capacity - 1 ∧ ¬allocOk then (-1, s)
    else
      let newCap := if stripped.length > e.capacity - 1 then
          roundUpLineMax (stripped.length + 1) else e.capacity
      let s1 := if s.histLen < XD_HISTORY_MAX then
          {s with histLen := s.histLen + 1}
        else {s with startIdx := (s.startIdx + 1) % XD_HISTORY_MAX}
      let s2 := {s1 with endIdx := newEndIdx,
                         history := s1.history.set newEndIdx ⟨stripped, newCap⟩}
      (0, s2)

/-- The iteration order of `xd_readline_history_print`: the stored
strings from `start` for `len` entries modulo `XD_HISTORY_MAX`. -/
def xd_readline_history_print_order (s : XdState) : List (List Nat) :=
  (List.range s.histLen).map
    (fun i => (hGet s.history ((s.startIdx + i) % XD_HISTORY_MAX)).str)

/-! ### Array-level model of the input buffer

For the memory-safety claim the input buffer is modelled as the whole
allocation: a list of exactly `C` bytes.  Every single array read and
write of the C code becomes a bounds-checked operation in the `Option`
monad, so `none` means the C code would have touched `B` outside
`[0, C)`. -/

/-- Bounds-checked write `arr[i] = v`. -/
def awr (arr : List Nat) (i v : Nat) : Option (List Nat) :=
  if i < arr.length then some (arr.set i v) else none

/-- The buffer-and-history fragment of the editor state, with the input
buffer as its full allocation (`arr.length = cap`). -/
structure ABuf where
  arr : List Nat
  cap : Nat
  len : Nat
  cur : Nat
  history : List HistEntry
  navIdx : Nat
  startIdx : Nat
  endIdx : Nat
  histLen : Nat
  finished : Bool
deriving Repr, DecidableEq

/-- The shift loop of `xd_input_buffer_insert`:
`for (i = len; i > cur; i--) arr[i] = arr[i-1]`. -/
def xd_shift_right_loop (cur : Nat) : List Nat → Nat → Option (List Nat)
  | arr, 0 => some arr
  | arr, Nat.succ i =>
    if cur < i + 1 then
      match arr.get? i with
      | none => none
      | some v =>
        match awr arr (i + 1) v with
        | none => none
        | some arr' => xd_shift_right_loop cur arr' i
    else some arr

/-- The shift loop of `xd_input_buffer_remove_before_cursor`, written
with its iteration count `stop - i` as an explicit structural
argument. -/
def xd_shift_left_go (n stop : Nat) : Nat → List Nat → Nat → Option (List Nat)
  | 0, arr, _ => some arr
  | Nat.succ k, arr, i =>
    if i < stop then
      match arr.get? i with
      | none => none
      | some v =>
        match awr arr (i - n) v with
        | none => none
        | some arr' => xd_shift_left_go n stop k arr' (i + 1)
    else some arr

/-- The shift loop of `xd_input_buffer_remove_before_cursor`:
`for (i = cur; i < len; i++) arr[i-n] = arr[i]` (`stop` is `len`). -/
def xd_shift_left_loop (n stop : Nat) (arr : List Nat) (i : Nat) :
    Option (List Nat) :=
  xd_shift_left_go n stop (stop - i) arr i

/-- The shift loop of `xd_input_buffer_remove_from_cursor`, written
with its iteration count `stop - i` as an explicit structural
argument. -/
def xd_shift_from_go (n stop : Nat) : Nat → List Nat → Nat → Option (List Nat)
  | 0, arr, _ => some arr
  | Nat.succ k, arr, i =>
    if i < stop then
      match arr.get? (i + n) with
      | none => none
      | some v =>
        match awr arr i v with
        | none => none
        | some arr' => xd_shift_from_go n stop k arr' (i + 1)
    else some arr

/-- The shift loop of `xd_input_buffer_remove_from_cursor`:
`for (i = cur; i < len - n; i++) arr[i] = arr[i+n]` (`stop` is
`len - n`). -/
def xd_shift_from_loop (n stop : Nat) (arr : List Nat) (i : Nat) :
    Option (List Nat) :=
  xd_shift_from_go n stop (stop - i) arr i

/-- Bounds-checked `memcpy` source read: the `n` bytes starting at
index `i`. -/
def xd_read_range (arr : List Nat) (i : Nat) : Nat → Option (List Nat)
  | 0 => some []
  | Nat.succ m =>
    match arr.get? i with
    | none => none
    | some v =>
      match xd_read_range arr (i + 1) m with
      | none => none
      | some vs => some (v :: vs)

/-- Bounds-checked `memcpy` destination write of the given bytes
starting at index `i`. -/
def xd_write_range (arr : List Nat) (i : Nat) : List Nat → Option (List Nat)
  | [] => some arr
  | v :: vs =>
    match awr arr i v with
    | none => none
    | some arr' => xd_write_range arr' (i + 1) vs

/-- `xd_input_buffer_insert`, array level. -/
def xd_input_buffer_insert_arr (chr : Nat) (b : ABuf) : Option ABuf :=
  match xd_shift_right_loop b.cur b.arr b.len with
  | none => none
  | some arr1 =>
    match awr arr1 b.cur chr with
    | none => none
    | some arr2 =>
      match awr arr2 (b.len + 1) 0 with
      | none => none
      | some arr3 => some {b with arr := arr3, cur := b.cur + 1, len := b.len + 1}

/-- `xd_input_buffer_remove_before_cursor`, array level. -/
def xd_input_buffer_remove_before_cursor_arr (n : Nat) (b : ABuf) :
    Option ABuf :=
  if b.cur < n then some b
  else
    match xd_shift_left_loop n b.len b.arr b.cur with
    | none => none
    | some arr' => some {b with arr := arr', cur := b.cur - n, len := b.len - n}

/-- `xd_input_buffer_remove_from_cursor`, array level. -/
def xd_input_buffer_remove_from_cursor_arr (n : Nat) (b : ABuf) :
    Option ABuf :=
  if b.len - b.cur < n then some b
  else
    match xd_shift_from_loop n (b.len - n) b.arr b.cur with
    | none => none
    | some arr' => some {b with arr := arr', len := b.len - n}

/-- The forward word-scan loops, array level, with the iteration bound
`len - idx` as an explicit structural argument. -/
def xd_word_scan_go (p : Nat → Bool) (arr : List Nat) (len : Nat) :
    Nat → Nat → Option Nat
  | 0, idx => some idx
  | Nat.succ k, idx =>
    if idx < len then
      match arr.get? idx with
      | none => none
      | some v =>
        if p v then xd_word_scan_go p arr len k (idx + 1) else some idx
    else some idx

/-- The forward word-scan loops, array level (`len` bounds the scan). -/
def xd_word_scan_arr (p : Nat → Bool) (arr : List Nat) (len idx : Nat) :
    Option Nat :=
  xd_word_scan_go p arr len (len - idx) idx

/-- The backward word-scan loops, array level. -/
def xd_word_scan_back_arr (p : Nat → Bool) (arr : List Nat) : Nat → Option Nat
  | 0 => some 0
  | Nat.succ i =>
    match arr.get? i with
    | none => none
    | some v => if p v then xd_word_scan_back_arr p arr i else some (i + 1)

/-- `xd_input_buffer_get_current_word_end`, array level. -/
def xd_word_end_arr (b : ABuf) : Option Nat :=
  match xd_word_scan_arr (fun c => !xd_isalnum c) b.arr b.len b.cur with
  | none => none
  | some i1 => xd_word_scan_arr xd_isalnum b.arr b.len i1

/-- `xd_input_buffer_get_current_word_start`, array level. -/
def xd_word_start_arr (b : ABuf) : Option Nat :=
  match xd_word_scan_back_arr (fun c => !xd_isalnum c) b.arr b.cur with
  | none => none
  | some i1 => xd_word_scan_back_arr xd_isalnum b.arr i1

/-- `xd_input_buffer_save_to_history`, array level: reads `B[0..L-1]`
through the checked `memcpy` model. -/
def xd_input_buffer_save_to_history_arr (allocOk : Bool) (b : ABuf) :
    Option ABuf :=
  let e := hGet b.history b.navIdx
  if b.len > e.capacity - 1 ∧ ¬allocOk then some b
  else
    let newCap := if b.len > e.capacity - 1 then roundUpLineMax (b.len + 1)
                  else e.capacity
    match xd_read_range b.arr 0 b.len with
    | none => none
    | some bytes =>
      some {b with history := b.history.set b.navIdx ⟨bytes, newCap⟩}

/-- `xd_input_buffer_load_from_history`, array level: grows the buffer
allocation if needed (`realloc` keeps the old contents and appends
uninitialised cells, modelled as zeros), then writes the entry bytes
and the NUL sentinel through checked writes. -/
def xd_input_buffer_load_from_history_arr (allocOk : Bool) (b : ABuf) :
    Option ABuf :=
  let e := hGet b.history b.navIdx
  if e.str.length > b.cap - 1 ∧ ¬allocOk then some b
  else
    let b1 := if e.str.length > b.cap - 1 then
        {b with cap := roundUpLineMax (e.str.length + 1),
                arr := b.arr ++
                  List.replicate (roundUpLineMax (e.str.length + 1) - b.cap) 0}
      else b
    match xd_write_range b1.arr 0 e.str with
    | none => none
    | some arr1 =>
      match awr arr1 e.str.length 0 with
      | none => none
      | some arr2 =>
        some {b1 with arr := arr2, len := e.str.length, cur := e.str.length}

/-- `xd_input_handle_delete`, array level (the bell is terminal output
only). -/
def xd_input_handle_delete_arr (b : ABuf) : Option ABuf :=
  if b.cur = b.len then some b
  else xd_input_buffer_remove_from_cursor_arr 1 b

/-- `xd_input_handle_ctrl_d`, array level. -/
def xd_input_handle_ctrl_d_arr (b : ABuf) : Option ABuf :=
  if b.len = 0 then some {b with finished := true}
  else xd_input_handle_delete_arr b

/-- `xd_input_handle_ctrl_h` (and Backspace), array level. -/
def xd_input_handle_ctrl_h_arr (b : ABuf) : Option ABuf :=
  if b.cur = 0 then some b
  else xd_input_buffer_remove_before_cursor_arr 1 b

/-- `xd_input_handle_ctrl_k`, array level. -/
def xd_input_handle_ctrl_k_arr (b : ABuf) : Option ABuf :=
  if b.cur = b.len then some b
  else xd_input_buffer_remove_from_cursor_arr (b.len - b.cur) b

/-- `xd_input_handle_ctrl_u`, array level. -/
def xd_input_handle_ctrl_u_arr (b : ABuf) : Option ABuf :=
  if b.cur = 0 then some b
  else xd_input_buffer_remove_before_cursor_arr b.cur b

/-- `xd_input_handle_enter`, array level: `B[L++] = LF; B[L] = NUL`. -/
def xd_input_handle_enter_arr (b : ABuf) : Option ABuf :=
  match awr b.arr b.len 10 with
  | none => none
  | some arr1 =>
    match awr arr1 (b.len + 1) 0 with
    | none => none
    | some arr2 => some {b with arr := arr2, len := b.len + 1, finished := true}

/-- `xd_input_handle_ctrl_a` (and Home), array level. -/
def xd_input_handle_ctrl_a_arr (b : ABuf) : Option ABuf :=
  if b.cur = 0 then some b else some {b with cur := 0}

/-- `xd_input_handle_ctrl_b` (and Left Arrow), array level. -/
def xd_input_handle_ctrl_b_arr (b : ABuf) : Option ABuf :=
  if b.cur = 0 then some b else some {b with cur := b.cur - 1}

/-- `xd_input_handle_ctrl_e` (and End), array level. -/
def xd_input_handle_ctrl_e_arr (b : ABuf) : Option ABuf :=
  if b.cur = b.len then some b else some {b with cur := b.len}

/-- `xd_input_handle_ctrl_f` (and Right Arrow), array level. -/
def xd_input_handle_ctrl_f_arr (b : ABuf) : Option ABuf :=
  if b.cur = b.len then some b else some {b with cur := b.cur + 1}

/-- `xd_input_handle_alt_f` (and Ctrl-Right), array level. -/
def xd_input_handle_alt_f_arr (b : ABuf) : Option ABuf :=
  if b.cur = b.len then some b
  else
    match xd_word_end_arr b with
    | none => none
    | some idx => some {b with cur := idx}

/-- `xd_input_handle_alt_b` (and Ctrl-Left), array level. -/
def xd_input_handle_alt_b_arr (b : ABuf) : Option ABuf :=
  if b.cur = 0 then some b
  else
    match xd_word_start_arr b with
    | none => none
    | some idx => some {b with cur := idx}

/-- `xd_input_handle_alt_d` (and Ctrl-Delete), array level. -/
def xd_input_handle_alt_d_arr (b : ABuf) : Option ABuf :=
  if b.cur = b.len then some b
  else
    match xd_word_end_arr b with
    | none => none
    | some idx => xd_input_buffer_remove_from_cursor_arr (idx - b.cur) b

/-- `xd_input_handle_alt_backspace`, array level. -/
def xd_input_handle_alt_backspace_arr (b : ABuf) : Option ABuf :=
  if b.cur = 0 then some b
  else
    match xd_word_start_arr b with
    | none => none
    | some idx => xd_input_buffer_remove_before_cursor_arr (b.cur - idx) b

/-- `xd_input_handle_up_arrow`, array level. -/
def xd_input_handle_up_arrow_arr (allocOk : Bool) (b : ABuf) : Option ABuf :=
  if b.histLen = 0 ∨ b.navIdx = b.startIdx then some b
  else
    match xd_input_buffer_save_to_history_arr allocOk b with
    | none => none
    | some b1 =>
      let b2 := if b1.navIdx = XD_HISTORY_MAX then {b1 with navIdx := b1.endIdx}
        else {b1 with navIdx := (b1.navIdx + XD_HISTORY_MAX - 1) % XD_HISTORY_MAX}
      xd_input_buffer_load_from_history_arr allocOk b2

/-- `xd_input_handle_down_arrow`, array level. -/
def xd_input_handle_down_arrow_arr (allocOk : Bool) (b : ABuf) : Option ABuf :=
  if b.histLen = 0 ∨ b.navIdx = XD_HISTORY_MAX then some b
  else
    match xd_input_buffer_save_to_history_arr allocOk b with
    | none => none
    | some b1 =>
      let b2 := if b1.navIdx = b1.endIdx then {b1 with navIdx := XD_HISTORY_MAX}
        else {b1 with navIdx := (b1.navIdx + 1) % XD_HISTORY_MAX}
      xd_input_buffer_load_from_history_arr allocOk b2

/-- The editing actions the main loop can dispatch (one per binding of
§4.5; bell-only and screen-only actions are identities on this
fragment of the state). -/
inductive EditAction where
  | printable (c : Nat)
  | ctrlA
  | ctrlB
  | ctrlD
  | ctrlE
  | ctrlF
  | ctrlG
  | ctrlH
  | enter
  | ctrlK
  | ctrlL
  | ctrlU
  | backspace
  | deleteKey
  | homeKey
  | endKey
  | upArrow
  | downArrow
  | leftArrow
  | rightArrow
  | altF
  | altB
  | altD
  | altBackspace
  | ctrlRightArrow
  | ctrlLeftArrow
  | ctrlDelete
deriving Repr, DecidableEq

/-- Dispatch an editing action on the array-level state, following the
delegations of the C handlers. -/
def applyEditAction (allocOk : Bool) : EditAction → ABuf → Option ABuf
  | EditAction.printable c => xd_input_buffer_insert_arr c
  | EditAction.ctrlA => xd_input_handle_ctrl_a_arr
  | EditAction.ctrlB => xd_input_handle_ctrl_b_arr
  | EditAction.ctrlD => xd_input_handle_ctrl_d_arr
  | EditAction.ctrlE => xd_input_handle_ctrl_e_arr
  | EditAction.ctrlF => xd_input_handle_ctrl_f_arr
  | EditAction.ctrlG => fun b => some b
  | EditAction.ctrlH => xd_input_handle_ctrl_h_arr
  | EditAction.enter => xd_input_handle_enter_arr
  | EditAction.ctrlK => xd_input_handle_ctrl_k_arr
  | EditAction.ctrlL => fun b => some b
  | EditAction.ctrlU => xd_input_handle_ctrl_u_arr
  | EditAction.backspace => xd_input_handle_ctrl_h_arr
  | EditAction.deleteKey => xd_input_handle_delete_arr
  | EditAction.homeKey => xd_input_handle_ctrl_a_arr
  | EditAction.endKey => xd_input_handle_ctrl_e_arr
  | EditAction.upArrow => xd_input_handle_up_arrow_arr allocOk
  | EditAction.downArrow => xd_input_handle_down_arrow_arr allocOk
  | EditAction.leftArrow => xd_input_handle_ctrl_b_arr
  | EditAction.rightArrow => xd_input_handle_ctrl_f_arr
  | EditAction.altF => xd_input_handle_alt_f_arr
  | EditAction.altB => xd_input_handle_alt_b_arr
  | EditAction.altD => xd_input_handle_alt_d_arr
  | EditAction.altBackspace => xd_input_handle_alt_backspace_arr
  | EditAction.ctrlRightArrow => xd_input_handle_alt_f_arr
  | EditAction.ctrlLeftArrow => xd_input_handle_alt_b_arr
  | EditAction.ctrlDelete => xd_input_handle_alt_d_arr

/-- One main-loop iteration on the array-level state: stop if finished,
grow the buffer at capacity (`realloc` keeps the contents; failure
breaks out of the loop, dispatching nothing), then dispatch the
action. -/
def xd_edit_step (allocOk : Bool) (a : EditAction) (b : ABuf) : Option ABuf :=
  if b.finished then some b
  else if b.len = b.cap - 1 ∧ ¬allocOk then some b
  else
    let b1 := if b.len = b.cap - 1 then
        {b with cap := b.cap * 2, arr := b.arr ++ List.replicate b.cap 0}
      else b
    applyEditAction allocOk a b1

/-- Run a sequence of main-loop iterations on the array-level state. -/
def xd_edit_run (allocOk : Bool) (acts : List EditAction) (b : ABuf) :
    Option ABuf :=
  acts.foldlM (fun b a => xd_edit_step allocOk a b) b

/-- The reset preamble of `xd_readline` on the array-level state
(`B[0] = NUL` is a checked write). -/
def xd_readline_reset_arr (b : ABuf) : Option ABuf :=
  match awr b.arr 0 0 with
  | none => none
  | some arr1 =>
    some {b with arr := arr1, cur := 0, len := 0,
                 navIdx := XD_HISTORY_MAX, finished := false}

/-- A concrete editor state used by the witness and counterexample
theorems: freshly initialised library state on an 8-column terminal. -/
def xdBase : XdState where
  inputBuffer := []
  inputCapacity := 2048
  inputCursor := 0
  redraw := false
  finished := false
  retNull := false
  exitReason := none
  history := [⟨[], 2048⟩, ⟨[], 2048⟩, ⟨[], 2048⟩, ⟨[], 2048⟩, ⟨[], 2048⟩]
  navIdx := 4
  startIdx := 0
  endIdx := 3
  histLen := 0
  winWidth := 8
  cursorRow := 1
  cursorCol := 1
  charsCount := 0
  prompt := []
  promptLength := 0
  output := []

/-- A concrete array-level state used by the witness and counterexample
theorems: capacity 8, freshly reset. -/
def aBase : ABuf where
  arr := List.replicate 8 0
  cap := 8
  len := 0
  cur := 0
  history := [⟨[], 2048⟩, ⟨[], 2048⟩, ⟨[], 2048⟩, ⟨[], 2048⟩, ⟨[], 2048⟩]
  navIdx := 4
  startIdx := 0
  endIdx := 3
  histLen := 0
  finished := false

/-- Number of clear-current-line sequences in an output trace. -/
def countClearLine (l : List OutItem) : Nat :=
  l.countP (fun x => decide (x = OutItem.clearLine))

/-- Well-formedness of the history ring as maintained by the code:
five entries, in-range indices, and `end + 1 ≡ start + len (mod H)`
(the slot after `end` is the next insertion point). -/
def HistRingOk (s : XdState) : Prop :=
  s.history.length = 5 ∧ s.startIdx < 4 ∧ s.endIdx < 4 ∧ s.histLen ≤ 4 ∧
  (s.endIdx + 1) % 4 = (s.startIdx + s.histLen) % 4

/-- A sequence of successful `xd_readline_history_add` calls. -/
def historyAddAll (adds : List (List Nat)) (s : XdState) : XdState :=
  adds.foldl (fun s l => (xd_readline_history_add true (some l) s).2) s

/-- Invariant relating the control-flow ghost fields to the result;
established by the reset preamble and preserved by the main loop. -/
def LoopInv (s : XdState) : Prop :=
  (s.finished = false → s.exitReason = none) ∧
  (s.exitReason = none → s.retNull = false) ∧
  (s.exitReason = some ExitReason.submit →
      s.retNull = false ∧ s.inputBuffer.getLast? = some 10) ∧
  (s.exitReason = some ExitReason.eotEmpty → s.retNull = true) ∧
  (s.exitReason = some ExitReason.eofRead → s.retNull = true) ∧
  (s.exitReason = some ExitReason.allocFail → s.retNull = false) ∧
  (s.exitReason = some ExitReason.fuelOut → s.retNull = false)

/-- The buffer/cursor well-formedness of the array-level state:
the allocation has exactly `cap` cells, `P ≤ L`, `L ≤ C - 1` (room for
the sentinel), and the history indices are in range. -/
def ABufInv (b : ABuf) : Prop :=
  b.arr.length = b.cap ∧ b.cur ≤ b.len ∧ b.len + 1 ≤ b.cap ∧
  b.history.length = 5 ∧ b.navIdx ≤ 4 ∧ b.endIdx ≤ 3

/-! ## Helper lemmas -/

theorem hGet_set_self {h : List HistEntry} {i : Nat} (e : HistEntry)
    (hi : i < h.length) : hGet (h.set i e) i = e := by
  simp [hGet, List.getD_eq_getElem?_getD, List.getElem?_set_self, hi]

theorem hGet_set_ne {h : List HistEntry} {i j : Nat} (e : HistEntry)
    (hij : i ≠ j) : hGet (h.set i e) j = hGet h j := by
  simp [hGet, List.getD_eq_getElem?_getD, List.getElem?_set_ne hij]

/-! ## C9 -/

/-- Claim C9: whenever `xd_readline_history_add` returns -1 (null input,
or allocation failure while growing the target slot), the entire
history state — indeed the entire editor state — is exactly as before
the call: the add is atomic on error. -/
theorem C9_history_add_error_atomic (allocOk : Bool) (str : Option (List Nat))
    (s : XdState) (h : (xd_readline_history_add allocOk str s).1 = -1) :
    (xd_readline_history_add allocOk str s).2 = s := by
  cases str with
  | none => rfl
  | some l =>
    simp only [xd_readline_history_add] at h ⊢
    split at h
    · split
      · rfl
      · simp_all
    · simp_all

/-- Witness for C9 at a concrete input: a `NULL` argument makes the add
report -1 and change nothing. -/
theorem C9_witness :
    (xd_readline_history_add true none xdBase).1 = -1 ∧
    (xd_readline_history_add true none xdBase).2 = xdBase :=
  ⟨rfl, C9_history_add_error_atomic true none xdBase rfl⟩

/-! ## C10 -/

/-- Claim C10: a byte that is neither printable (0x20–0x7E) nor one of
the thirteen bound control bytes is a no-op for the per-byte input
handler: the state (buffer, cursor, screen, history, flags, output) and
the remaining input are both unchanged. -/
theorem C10_unbound_byte_noop (allocOk : Bool) (chr : Nat) (s : XdState)
    (input : List Nat)
    (hp : ¬(32 ≤ chr ∧ chr ≤ 126))
    (hb : chr ∉ [1, 2, 4, 5, 6, 7, 8, 10, 11, 12, 21, 27, 127]) :
    xd_input_handler allocOk chr s input = (s, input) := by
  simp only [List.mem_cons, List.not_mem_nil, or_false, not_or] at hb
  obtain ⟨h1, h2, h4, h5, h6, h7, h8, h10, h11, h12, h21, h27, h127⟩ := hb
  simp only [xd_input_handler, xd_input_handle_control, xd_isprint, xd_iscntrl,
    Bool.and_eq_true, Bool.or_eq_true, decide_eq_true_eq]
  split_ifs <;> first | rfl | omega

/-- Witness for C10 at a concrete input: TAB (byte 9) is a no-op. -/
theorem C10_witness :
    xd_input_handler true 9 xdBase [5] = (xdBase, [5]) :=
  C10_unbound_byte_noop true 9 xdBase [5] (by decide) (by decide)

/-! ## Screen-model helper lemmas -/

theorem flatPos_nonneg (s : XdState) (hR : 1 ≤ s.cursorRow)
    (hK1 : 1 ≤ s.cursorCol) : 0 ≤ flatPos s := by
  have h1 : (0 : Int) ≤ (s.cursorRow - 1) * (s.winWidth : Int) :=
    mul_nonneg (by omega) (by positivity)
  unfold flatPos
  omega

theorem flat_div_self {R K W : Int} (hW : 0 < W) (hK1 : 1 ≤ K) (hK2 : K ≤ W) :
    ((R - 1) * W + K - 1) / W = R - 1 ∧ ((R - 1) * W + K - 1) % W = K - 1 := by
  have harg : (R - 1) * W + K - 1 = (K - 1) + (R - 1) * W := by ring
  constructor
  · rw [harg, Int.add_mul_ediv_right _ _ (by omega : W ≠ 0),
      Int.ediv_eq_zero_of_lt (by omega) (by omega)]
    ring
  · rw [harg, Int.add_mul_emod_self, Int.emod_eq_of_lt (by omega) (by omega)]

/-- `xd_tty_cursor_move_right_wrap` places the cursor at flat position
`F + n` for `n ≥ 0`. -/
theorem move_right_wrap_rowcol (s : XdState) (n : Int) (hW : 1 ≤ s.winWidth)
    (hR : 1 ≤ s.cursorRow) (hK1 : 1 ≤ s.cursorCol)
    (hK2 : s.cursorCol ≤ (s.winWidth : Int)) (hn : 0 ≤ n) :
    (xd_tty_cursor_move_right_wrap n s).cursorRow
        = (flatPos s + n) / (s.winWidth : Int) + 1 ∧
    (xd_tty_cursor_move_right_wrap n s).cursorCol
        = (flatPos s + n) % (s.winWidth : Int) + 1 := by
  have hW' : (0 : Int) < (s.winWidth : Int) := by exact_mod_cast hW
  have hself := flat_div_self (R := s.cursorRow) (K := s.cursorCol) hW' hK1 hK2
  have harg : (s.cursorRow - 1) * (s.winWidth : Int) + s.cursorCol + n - 1
      = flatPos s + n := by unfold flatPos; ring
  have hnn : 0 ≤ flatPos s + n := by
    have := flatPos_nonneg s hR hK1; omega
  by_cases h0 : n = 0
  · subst h0
    have hz : xd_tty_cursor_move_right_wrap 0 s = s := by
      unfold xd_tty_cursor_move_right_wrap
      simp
    rw [hz, add_zero]
    unfold flatPos
    exact ⟨by omega, by omega⟩
  · unfold xd_tty_cursor_move_right_wrap
    rw [if_neg h0]
    simp only [harg, Int.tdiv_eq_ediv hnn (le_of_lt hW'), Int.tmod_eq_emod hnn (le_of_lt hW')]
    split_ifs <;> simp_all

/-- `xd_tty_cursor_move_left_wrap` places the cursor at flat position
`F - n` for `0 ≤ n ≤ F`. -/
theorem move_left_wrap_rowcol (s : XdState) (n : Int) (hW : 1 ≤ s.winWidth)
    (hR : 1 ≤ s.cursorRow) (hK1 : 1 ≤ s.cursorCol)
    (hK2 : s.cursorCol ≤ (s.winWidth : Int)) (hn : 0 ≤ n)
    (hle : n ≤ flatPos s) :
    (xd_tty_cursor_move_left_wrap n s).cursorRow
        = (flatPos s - n) / (s.winWidth : Int) + 1 ∧
    (xd_tty_cursor_move_left_wrap n s).cursorCol
        = (flatPos s - n) % (s.winWidth : Int) + 1 := by
  have hW' : (0 : Int) < (s.winWidth : Int) := by exact_mod_cast hW
  have hself := flat_div_self (R := s.cursorRow) (K := s.cursorCol) hW' hK1 hK2
  have harg : (s.cursorRow - 1) * (s.winWidth : Int) + s.cursorCol - n - 1
      = flatPos s - n := by unfold flatPos; ring
  have hnn : 0 ≤ flatPos s - n := by omega
  by_cases h0 : n = 0
  · subst h0
    have hz : xd_tty_cursor_move_left_wrap 0 s = s := by
      unfold xd_tty_cursor_move_left_wrap
      simp
    rw [hz, sub_zero]
    unfold flatPos
    exact ⟨by omega, by omega⟩
  · unfold xd_tty_cursor_move_left_wrap
    rw [if_neg h0]
    simp only [harg, Int.tdiv_eq_ediv hnn (le_of_lt hW'),
      Int.tmod_eq_emod hnn (le_of_lt hW')]
    split_ifs <;> simp_all

/-- `xd_tty_write_track` advances the cursor by the number of bytes
written, emitting a space first whenever the new column is 1. -/
theorem write_track_spec (s : XdState) (data : List Nat) (hW : 1 ≤ s.winWidth)
    (hR : 1 ≤ s.cursorRow) (hK1 : 1 ≤ s.cursorCol)
    (hK2 : s.cursorCol ≤ (s.winWidth : Int)) :
    (xd_tty_write_track data s).cursorRow
        = (flatPos s + data.length) / (s.winWidth : Int) + 1 ∧
    (xd_tty_write_track data s).cursorCol
        = (flatPos s + data.length) % (s.winWidth : Int) + 1 ∧
    (data.length ≠ 0 →
      (xd_tty_write_track data s).output
        = s.output ++ [OutItem.raw data] ++
          (if (flatPos s + data.length) % (s.winWidth : Int) + 1 = 1
           then [OutItem.raw [32]] else []) ++
          [OutItem.setCol ((flatPos s + data.length) % (s.winWidth : Int) + 1)]) := by
  have hW' : (0 : Int) < (s.winWidth : Int) := by exact_mod_cast hW
  have hself := flat_div_self (R := s.cursorRow) (K := s.cursorCol) hW' hK1 hK2
  have harg : (s.cursorRow - 1) * (s.winWidth : Int) + s.cursorCol
      + (data.length : Int) - 1 = flatPos s + data.length := by
    unfold flatPos; ring
  have hnn : 0 ≤ flatPos s + (data.length : Int) := by
    have := flatPos_nonneg s hR hK1
    have : (0 : Int) ≤ (data.length : Int) := by positivity
    omega
  by_cases h0 : data.length = 0
  · have hz : xd_tty_write_track data s = s := by
      unfold xd_tty_write_track
      rw [if_pos h0]
    refine ⟨?_, ?_, fun h => absurd h0 h⟩ <;>
      · rw [hz, h0]
        push_cast
        rw [add_zero]
        unfold flatPos
        omega
  · unfold xd_tty_write_track xd_tty_write
    rw [if_neg h0, if_neg h0]
    simp only [harg, Int.tdiv_eq_ediv hnn (le_of_lt hW'),
      Int.tmod_eq_emod hnn (le_of_lt hW')]
    split_ifs <;> simp_all

/-! ## C5 -/

/-- Claim C5 (amended): for width `W ≥ 1`, a valid cursor position, and
`n ≥ 0`, move-right-wrap(n) and a tracked write of `n` bytes satisfy
`R = ⌊F'/W⌋+1`, `K = (F' mod W)+1` with `F' = F + n`, and a tracked
write emits a single space byte before re-setting the column whenever
the resulting `K` is 1; move-left-wrap(n) satisfies the same formulas
with `F' = F - n` provided `n ≤ F` (for `n > F` the C code computes
truncated, not floored, division on the negative intermediate, see the
counterexample). -/
theorem C5_screen_motion_amended (s : XdState) (n : Int) (data : List Nat)
    (hW : 1 ≤ s.winWidth) (hR : 1 ≤ s.cursorRow) (hK1 : 1 ≤ s.cursorCol)
    (hK2 : s.cursorCol ≤ (s.winWidth : Int)) (hn : 0 ≤ n) :
    (n ≤ flatPos s →
      (xd_tty_cursor_move_left_wrap n s).cursorRow
          = (flatPos s - n) / (s.winWidth : Int) + 1 ∧
      (xd_tty_cursor_move_left_wrap n s).cursorCol
          = (flatPos s - n) % (s.winWidth : Int) + 1) ∧
    ((xd_tty_cursor_move_right_wrap n s).cursorRow
        = (flatPos s + n) / (s.winWidth : Int) + 1 ∧
     (xd_tty_cursor_move_right_wrap n s).cursorCol
        = (flatPos s + n) % (s.winWidth : Int) + 1) ∧
    ((xd_tty_write_track data s).cursorRow
        = (flatPos s + data.length) / (s.winWidth : Int) + 1 ∧
     (xd_tty_write_track data s).cursorCol
        = (flatPos s + data.length) % (s.winWidth : Int) + 1 ∧
     (data.length ≠ 0 →
       (xd_tty_write_track data s).output
         = s.output ++ [OutItem.raw data] ++
           (if (flatPos s + data.length) % (s.winWidth : Int) + 1 = 1
            then [OutItem.raw [32]] else []) ++
           [OutItem.setCol ((flatPos s + data.length) % (s.winWidth : Int) + 1)])) :=
  ⟨fun hle => move_left_wrap_rowcol s n hW hR hK1 hK2 hn hle,
   move_right_wrap_rowcol s n hW hR hK1 hK2 hn,
   write_track_spec s data hW hR hK1 hK2⟩

/-- Counterexample for C5 as stated: with `W = 8` and the cursor at
`(R, K) = (1, 3)` (flat position 2), move-left-wrap(5) drives the flat
position to -3; the claimed floor formula gives row `⌊-3/8⌋+1 = 0`, but
the C truncated division leaves the row at 1. -/
theorem C5_counterexample :
    1 ≤ ({xdBase with winWidth := 8, cursorCol := 3} : XdState).winWidth ∧
    1 ≤ ({xdBase with winWidth := 8, cursorCol := 3} : XdState).cursorRow ∧
    1 ≤ ({xdBase with winWidth := 8, cursorCol := 3} : XdState).cursorCol ∧
    ({xdBase with winWidth := 8, cursorCol := 3} : XdState).cursorCol
      ≤ (({xdBase with winWidth := 8, cursorCol := 3} : XdState).winWidth : Int) ∧
    (0 : Int) ≤ 5 ∧
    ¬((xd_tty_cursor_move_left_wrap 5
          {xdBase with winWidth := 8, cursorCol := 3}).cursorRow
        = (flatPos {xdBase with winWidth := 8, cursorCol := 3} - 5)
            / (({xdBase with winWidth := 8, cursorCol := 3} : XdState).winWidth : Int)
          + 1) := by
  decide

/-- Witness for C5 at a concrete input: width 8, cursor at column 3
(flat position 2), moving left by 2 lands on column 1, moving right by
2 lands on column 5. -/
theorem C5_witness :
    (xd_tty_cursor_move_left_wrap 2
        {xdBase with winWidth := 8, cursorCol := 3}).cursorCol = 1 ∧
    (xd_tty_cursor_move_right_wrap 2
        {xdBase with winWidth := 8, cursorCol := 3}).cursorCol = 5 := by
  have h := C5_screen_motion_amended {xdBase with winWidth := 8, cursorCol := 3}
    2 [65, 66] (by decide) (by decide) (by decide) (by decide) (by decide)
  constructor
  · rw [(h.1 (by decide)).2]
    decide
  · rw [h.2.1.2]
    decide

/-! ## C6 -/

theorem move_right_wrap_charsCount (n : Int) (s : XdState) :
    (xd_tty_cursor_move_right_wrap n s).charsCount = s.charsCount := by
  unfold xd_tty_cursor_move_right_wrap
  split
  · rfl
  · dsimp only
    split <;> rfl

theorem move_right_wrap_winWidth (n : Int) (s : XdState) :
    (xd_tty_cursor_move_right_wrap n s).winWidth = s.winWidth := by
  unfold xd_tty_cursor_move_right_wrap
  split
  · rfl
  · dsimp only
    split <;> rfl

theorem move_right_wrap_countClear (n : Int) (s : XdState) :
    countClearLine (xd_tty_cursor_move_right_wrap n s).output
      = countClearLine s.output := by
  unfold xd_tty_cursor_move_right_wrap
  split
  · rfl
  · dsimp only
    split <;> simp [countClearLine]

/-- Behaviour of the clear-rows loop when it runs at least once. -/
theorem clearRowsLoop_spec (k : Nat) : ∀ s : XdState,
    (clearRowsLoop (k + 1) s).charsCount = s.charsCount ∧
    (clearRowsLoop (k + 1) s).cursorRow = s.cursorRow - k ∧
    (clearRowsLoop (k + 1) s).cursorCol = 1 ∧
    countClearLine (clearRowsLoop (k + 1) s).output
      = countClearLine s.output + (k + 1) := by
  induction k with
  | zero =>
    intro s
    simp [clearRowsLoop, countClearLine]
  | succ m ih =>
    intro s
    have hstep : clearRowsLoop (m + 1 + 1) s = clearRowsLoop (m + 1)
        {s with output := (s.output ++ [OutItem.clearLine]) ++ [OutItem.moveUp 1],
                cursorCol := 1, cursorRow := s.cursorRow - 1} := rfl
    rw [hstep]
    obtain ⟨h1, h2, h3, h4⟩ := ih
        {s with output := (s.output ++ [OutItem.clearLine]) ++ [OutItem.moveUp 1],
                cursorCol := 1, cursorRow := s.cursorRow - 1}
    refine ⟨by simpa using h1, ?_, h3, ?_⟩
    · rw [h2]
      push_cast
      ring_nf
    · rw [h4]
      simp [countClearLine]
      omega

/-- Claim C6: clear-footprint moves to the end of the rendered region,
clears exactly `(N + W) / W` rows — which equals `⌈(N+1)/W⌉`, and is 1
when `N = 0` — and leaves `N = 0` and `R = K = 1`. -/
theorem C6_clear_footprint (s : XdState) (hW : 1 ≤ s.winWidth)
    (hR : 1 ≤ s.cursorRow) (hK1 : 1 ≤ s.cursorCol)
    (hK2 : s.cursorCol ≤ (s.winWidth : Int))
    (hF : flatPos s ≤ (s.charsCount : Int)) :
    (xd_tty_input_clear s).charsCount = 0 ∧
    (xd_tty_input_clear s).cursorRow = 1 ∧
    (xd_tty_input_clear s).cursorCol = 1 ∧
    countClearLine (xd_tty_input_clear s).output
      = countClearLine s.output + (s.charsCount + s.winWidth) / s.winWidth ∧
    (s.charsCount + s.winWidth) / s.winWidth
      = (s.charsCount + 1 + (s.winWidth - 1)) / s.winWidth ∧
    (s.charsCount = 0 → (s.charsCount + s.winWidth) / s.winWidth = 1) := by
  have hW0 : 0 < s.winWidth := hW
  have hceil : s.charsCount + 1 + (s.winWidth - 1) = s.charsCount + s.winWidth := by
    omega
  have hone : s.charsCount = 0 → (s.charsCount + s.winWidth) / s.winWidth = 1 := by
    intro h
    rw [h, Nat.zero_add, Nat.div_self hW0]
  -- the cursor lands at flat position N
  have hmv := move_right_wrap_rowcol s ((s.charsCount : Int) - flatPos s)
    hW hR hK1 hK2 (by omega)
  have harg : flatPos s + ((s.charsCount : Int) - flatPos s) = (s.charsCount : Int) := by
    ring
  rw [harg] at hmv
  unfold xd_tty_input_clear
  dsimp only
  rw [move_right_wrap_charsCount, move_right_wrap_winWidth]
  have hrows : (s.charsCount + s.winWidth) / s.winWidth = s.charsCount / s.winWidth + 1 :=
    Nat.add_div_right _ hW0
  obtain ⟨hc1, hc2, hc3, hc4⟩ := clearRowsLoop_spec (s.charsCount / s.winWidth)
    (xd_tty_cursor_move_right_wrap ((s.charsCount : Int) - flatPos s) s)
  refine ⟨rfl, ?_, ?_, ?_, by rw [hceil], hone⟩
  · show (clearRowsLoop _ _).cursorRow = 1
    rw [hrows, hc2, hmv.1]
    have hcast : ((s.charsCount / s.winWidth : Nat) : Int)
        = (s.charsCount : Int) / (s.winWidth : Int) := Int.ofNat_ediv _ _
    omega
  · show (clearRowsLoop _ _).cursorCol = 1
    rw [hrows]
    exact hc3
  · show countClearLine (clearRowsLoop _ _).output = _
    rw [hrows, hc4, move_right_wrap_countClear]

/-- Witness for C6 at a concrete input: width 8, cursor at `(2, 3)`
(flat 10), 12 rendered cells: the footprint is cleared in 2 rows and
the cursor returns to the origin. -/
theorem C6_witness :
    (xd_tty_input_clear {xdBase with winWidth := 8, cursorRow := 2, cursorCol := 3, charsCount := 12}).cursorRow = 1 ∧
    countClearLine (xd_tty_input_clear {xdBase with winWidth := 8, cursorRow := 2, cursorCol := 3, charsCount := 12}).output = 2 := by
  have h := C6_clear_footprint {xdBase with winWidth := 8, cursorRow := 2, cursorCol := 3, charsCount := 12}
    (by decide) (by decide) (by decide) (by decide) (by decide)
  refine ⟨h.2.1, ?_⟩
  rw [h.2.2.2.1]
  decide

/-! ## C1 -/

/-- With a successful allocation, `xd_input_buffer_save_to_history`
stores exactly the input-buffer bytes into the slot at `nav` (only the
slot's capacity depends on the growth path). -/
theorem save_to_history_spec (s : XdState) :
    ∃ c, xd_input_buffer_save_to_history true s =
      {s with history := s.history.set s.navIdx ⟨s.inputBuffer, c⟩} := by
  unfold xd_input_buffer_save_to_history
  dsimp only
  split_ifs with h1 h2
  · exact ⟨_, rfl⟩
  · exact absurd rfl h2
  · exact ⟨_, rfl⟩

/-- With a successful allocation, `xd_input_buffer_load_from_history`
copies the bytes of the slot at `nav` into the input buffer and puts
the cursor at the end (only the buffer capacity depends on the growth
path). -/
theorem load_from_history_spec (s : XdState) :
    ∃ c, xd_input_buffer_load_from_history true s =
      {s with inputCapacity := c,
              inputBuffer := (hGet s.history s.navIdx).str,
              inputCursor := (hGet s.history s.navIdx).str.length} := by
  unfold xd_input_buffer_load_from_history
  dsimp only
  split_ifs with h1 h2
  · exact ⟨_, rfl⟩
  · exact absurd rfl h2
  · exact ⟨_, rfl⟩

/-- Claim C1 (amended): history-prev with `len > 0` and `nav ≠ start`
always first saves the input buffer into the *current* navigation slot
`nav` — so when `nav ≠ H` the committed ring entry at `nav` is
overwritten with the buffer contents; then `nav` becomes `end` if
`nav = H` and `(nav - 1 + H) mod H` otherwise; then the slot at the new
`nav` is loaded into the input buffer with `P = L`, and the redraw flag
is set.  Slots other than the old `nav` are unchanged. -/
theorem C1_history_prev_amended (s : XdState)
    (hh : s.history.length = 5) (hL : 0 < s.histLen)
    (hnav : s.navIdx ≠ s.startIdx) (hnav4 : s.navIdx ≤ 4) (hend : s.endIdx ≤ 3) :
    (xd_input_handle_up_arrow true s).navIdx
        = (if s.navIdx = XD_HISTORY_MAX then s.endIdx
           else (s.navIdx + XD_HISTORY_MAX - 1) % XD_HISTORY_MAX) ∧
    (hGet (xd_input_handle_up_arrow true s).history s.navIdx).str
        = s.inputBuffer ∧
    (∀ i, i ≠ s.navIdx →
        hGet (xd_input_handle_up_arrow true s).history i = hGet s.history i) ∧
    (xd_input_handle_up_arrow true s).inputBuffer
        = (hGet s.history (if s.navIdx = XD_HISTORY_MAX then s.endIdx
             else (s.navIdx + XD_HISTORY_MAX - 1) % XD_HISTORY_MAX)).str ∧
    (xd_input_handle_up_arrow true s).inputCursor
        = (xd_input_handle_up_arrow true s).inputBuffer.length ∧
    (xd_input_handle_up_arrow true s).redraw = true := by
  have hguard : ¬(s.histLen = 0 ∨ s.navIdx = s.startIdx) := by omega
  have hlt : s.navIdx < s.history.length := by omega
  obtain ⟨c1, hsave⟩ := save_to_history_spec s
  simp only [XD_HISTORY_MAX] at *
  unfold xd_input_handle_up_arrow
  simp only [XD_HISTORY_MAX]
  rw [if_neg hguard, hsave]
  dsimp only
  by_cases h4 : s.navIdx = 4
  · rw [if_pos h4]
    have hne : s.navIdx ≠ s.endIdx := by omega
    obtain ⟨c2, hload⟩ := load_from_history_spec
      {s with history := s.history.set s.navIdx ⟨s.inputBuffer, c1⟩,
              navIdx := s.endIdx}
    rw [hload]
    dsimp only
    rw [if_pos h4]
    refine ⟨rfl, ?_, ?_, ?_, rfl, rfl⟩
    · rw [hGet_set_self _ hlt]
    · intro i hi
      exact hGet_set_ne _ (fun h => hi h.symm)
    · rw [hGet_set_ne _ hne]
  · rw [if_neg h4]
    have hne : s.navIdx ≠ (s.navIdx + 4 - 1) % 4 := by omega
    obtain ⟨c2, hload⟩ := load_from_history_spec
      {s with history := s.history.set s.navIdx ⟨s.inputBuffer, c1⟩,
              navIdx := (s.navIdx + 4 - 1) % 4}
    rw [hload]
    dsimp only
    rw [if_neg h4]
    refine ⟨rfl, ?_, ?_, ?_, rfl, rfl⟩
    · rw [hGet_set_self _ hlt]
    · intro i hi
      exact hGet_set_ne _ (fun h => hi h.symm)
    · rw [hGet_set_ne _ hne]

/-- Counterexample for C1 as stated: a state navigating inside the ring
(`nav = 1 ≠ start = 0`, two committed entries) whose buffer was edited
to `[120]`; history-prev overwrites the committed ring entry at slot 1
(previously `[98]`) with the buffer, contradicting "no slot is written
/ no committed ring entry is modified" for `nav ≠ H`. -/
theorem C1_counterexample :
    0 < ({xdBase with history := [⟨[97], 2048⟩, ⟨[98], 2048⟩, ⟨[], 2048⟩, ⟨[], 2048⟩, ⟨[], 2048⟩], startIdx := 0, endIdx := 1, histLen := 2, navIdx := 1, inputBuffer := [120], inputCursor := 1} : XdState).histLen ∧
    ({xdBase with history := [⟨[97], 2048⟩, ⟨[98], 2048⟩, ⟨[], 2048⟩, ⟨[], 2048⟩, ⟨[], 2048⟩], startIdx := 0, endIdx := 1, histLen := 2, navIdx := 1, inputBuffer := [120], inputCursor := 1} : XdState).navIdx ≠ ({xdBase with history := [⟨[97], 2048⟩, ⟨[98], 2048⟩, ⟨[], 2048⟩, ⟨[], 2048⟩, ⟨[], 2048⟩], startIdx := 0, endIdx := 1, histLen := 2, navIdx := 1, inputBuffer := [120], inputCursor := 1} : XdState).startIdx ∧
    ({xdBase with history := [⟨[97], 2048⟩, ⟨[98], 2048⟩, ⟨[], 2048⟩, ⟨[], 2048⟩, ⟨[], 2048⟩], startIdx := 0, endIdx := 1, histLen := 2, navIdx := 1, inputBuffer := [120], inputCursor := 1} : XdState).navIdx ≠ XD_HISTORY_MAX ∧
    (hGet (xd_input_handle_up_arrow true {xdBase with history := [⟨[97], 2048⟩, ⟨[98], 2048⟩, ⟨[], 2048⟩, ⟨[], 2048⟩, ⟨[], 2048⟩], startIdx := 0, endIdx := 1, histLen := 2, navIdx := 1, inputBuffer := [120], inputCursor := 1}).history 1).str
      ≠ (hGet ({xdBase with history := [⟨[97], 2048⟩, ⟨[98], 2048⟩, ⟨[], 2048⟩, ⟨[], 2048⟩, ⟨[], 2048⟩], startIdx := 0, endIdx := 1, histLen := 2, navIdx := 1, inputBuffer := [120], inputCursor := 1} : XdState).history 1).str := by
  decide

/-- Witness for C1 at a concrete input: from `nav = 1`, history-prev
moves to slot 0 and loads its contents. -/
theorem C1_witness :
    (xd_input_handle_up_arrow true {xdBase with history := [⟨[97], 2048⟩, ⟨[98], 2048⟩, ⟨[], 2048⟩, ⟨[], 2048⟩, ⟨[], 2048⟩], startIdx := 0, endIdx := 1, histLen := 2, navIdx := 1, inputBuffer := [120], inputCursor := 1}).navIdx = 0 ∧
    (xd_input_handle_up_arrow true {xdBase with history := [⟨[97], 2048⟩, ⟨[98], 2048⟩, ⟨[], 2048⟩, ⟨[], 2048⟩, ⟨[], 2048⟩], startIdx := 0, endIdx := 1, histLen := 2, navIdx := 1, inputBuffer := [120], inputCursor := 1}).inputBuffer = [97] := by
  have h := C1_history_prev_amended {xdBase with history := [⟨[97], 2048⟩, ⟨[98], 2048⟩, ⟨[], 2048⟩, ⟨[], 2048⟩, ⟨[], 2048⟩], startIdx := 0, endIdx := 1, histLen := 2, navIdx := 1, inputBuffer := [120], inputCursor := 1}
    (by decide) (by decide) (by decide) (by decide) (by decide)
  constructor
  · rw [h.1]
    decide
  · rw [h.2.2.2.1]
    decide

/-! ## C8 -/

/-- Claim C8: from the scratch slot (`nav = H`) with non-empty history,
history-prev followed immediately by history-next returns `nav` to the
scratch slot and restores the input buffer contents and length, with
the cursor at `P = L`. -/
theorem C8_history_roundtrip (s : XdState)
    (hh : s.history.length = 5) (hL : 0 < s.histLen)
    (hnav : s.navIdx = XD_HISTORY_MAX) (hstart : s.startIdx ≤ 3)
    (hend : s.endIdx ≤ 3) :
    (xd_input_handle_down_arrow true (xd_input_handle_up_arrow true s)).navIdx
        = XD_HISTORY_MAX ∧
    (xd_input_handle_down_arrow true (xd_input_handle_up_arrow true s)).inputBuffer
        = s.inputBuffer ∧
    (xd_input_handle_down_arrow true (xd_input_handle_up_arrow true s)).inputCursor
        = s.inputBuffer.length := by
  simp only [XD_HISTORY_MAX] at *
  have hguard1 : ¬(s.histLen = 0 ∨ s.navIdx = s.startIdx) := by omega
  obtain ⟨c1, hsave1⟩ := save_to_history_spec s
  obtain ⟨c2, hload1⟩ := load_from_history_spec
    {s with history := s.history.set s.navIdx ⟨s.inputBuffer, c1⟩,
            navIdx := s.endIdx}
  have hup : xd_input_handle_up_arrow true s =
      {s with history := s.history.set s.navIdx ⟨s.inputBuffer, c1⟩,
              navIdx := s.endIdx,
              inputCapacity := c2,
              inputBuffer :=
                (hGet (s.history.set s.navIdx ⟨s.inputBuffer, c1⟩) s.endIdx).str,
              inputCursor :=
                (hGet (s.history.set s.navIdx ⟨s.inputBuffer, c1⟩) s.endIdx).str.length,
              redraw := true} := by
    unfold xd_input_handle_up_arrow
    simp only [XD_HISTORY_MAX]
    rw [if_neg hguard1, hsave1]
    dsimp only
    rw [if_pos hnav, hload1]
  rw [hup]
  have hguard2 : ¬(s.histLen = 0 ∨ s.endIdx = 4) := by omega
  obtain ⟨c3, hsave2⟩ := save_to_history_spec
    {s with history := s.history.set s.navIdx ⟨s.inputBuffer, c1⟩,
            navIdx := s.endIdx,
            inputCapacity := c2,
            inputBuffer :=
              (hGet (s.history.set s.navIdx ⟨s.inputBuffer, c1⟩) s.endIdx).str,
            inputCursor :=
              (hGet (s.history.set s.navIdx ⟨s.inputBuffer, c1⟩) s.endIdx).str.length,
            redraw := true}
  obtain ⟨c4, hload2⟩ := load_from_history_spec
    {s with history := (s.history.set s.navIdx ⟨s.inputBuffer, c1⟩).set s.endIdx
              ⟨(hGet (s.history.set s.navIdx ⟨s.inputBuffer, c1⟩) s.endIdx).str, c3⟩,
            navIdx := 4,
            inputCapacity := c2,
            inputBuffer :=
              (hGet (s.history.set s.navIdx ⟨s.inputBuffer, c1⟩) s.endIdx).str,
            inputCursor :=
              (hGet (s.history.set s.navIdx ⟨s.inputBuffer, c1⟩) s.endIdx).str.length,
            redraw := true}
  unfold xd_input_handle_down_arrow
  simp only [XD_HISTORY_MAX]
  rw [if_neg hguard2, hsave2]
  dsimp only
  rw [if_pos rfl, hload2]
  dsimp only
  have hne : s.endIdx ≠ 4 := by omega
  rw [hGet_set_ne _ hne, hnav, hGet_set_self _ (by omega)]
  exact ⟨rfl, rfl, rfl⟩

/-- Witness for C8 at a concrete input: scratch-slot state with an
edited line `[120]`; Up then Down restores it. -/
theorem C8_witness :
    (xd_input_handle_down_arrow true (xd_input_handle_up_arrow true {xdBase with history := [⟨[97], 2048⟩, ⟨[98], 2048⟩, ⟨[], 2048⟩, ⟨[], 2048⟩, ⟨[], 2048⟩], startIdx := 0, endIdx := 1, histLen := 2, navIdx := 4, inputBuffer := [120], inputCursor := 1})).navIdx = 4 ∧
    (xd_input_handle_down_arrow true (xd_input_handle_up_arrow true {xdBase with history := [⟨[97], 2048⟩, ⟨[98], 2048⟩, ⟨[], 2048⟩, ⟨[], 2048⟩, ⟨[], 2048⟩], startIdx := 0, endIdx := 1, histLen := 2, navIdx := 4, inputBuffer := [120], inputCursor := 1})).inputBuffer = [120] := by
  have h := C8_history_roundtrip {xdBase with history := [⟨[97], 2048⟩, ⟨[98], 2048⟩, ⟨[], 2048⟩, ⟨[], 2048⟩, ⟨[], 2048⟩], startIdx := 0, endIdx := 1, histLen := 2, navIdx := 4, inputBuffer := [120], inputCursor := 1}
    (by decide) (by decide) (by decide) (by decide) (by decide)
  exact ⟨h.1, h.2.1⟩

/-! ## C3 -/

theorem print_order_length (s : XdState) :
    (xd_readline_history_print_order s).length = s.histLen := by
  simp [xd_readline_history_print_order]

/-- One successful `xd_readline_history_add`: ring validity is
preserved, `len` saturates at `H`, and the print order gains the
stripped string at the back (losing the oldest entry when full). -/
theorem history_add_step (s : XdState) (x : List Nat) (hOk : HistRingOk s) :
    HistRingOk (xd_readline_history_add true (some x) s).2 ∧
    (xd_readline_history_add true (some x) s).2.histLen
      = min (s.histLen + 1) 4 ∧
    xd_readline_history_print_order (xd_readline_history_add true (some x) s).2
      = (if s.histLen < 4
         then xd_readline_history_print_order s ++ [stripTrailingLF x]
         else (xd_readline_history_print_order s).tail ++ [stripTrailingLF x]) := by
  obtain ⟨hlen5, hs4, he4, hl4, hcoh⟩ := hOk
  have hone : (xd_readline_history_add true (some x) s).2 =
      (if s.histLen < XD_HISTORY_MAX
       then {s with histLen := s.histLen + 1,
                    endIdx := (s.endIdx + 1) % XD_HISTORY_MAX,
                    history := s.history.set ((s.endIdx + 1) % XD_HISTORY_MAX)
                      ⟨stripTrailingLF x,
                       if (stripTrailingLF x).length >
                           (hGet s.history ((s.endIdx + 1) % XD_HISTORY_MAX)).capacity - 1
                       then roundUpLineMax ((stripTrailingLF x).length + 1)
                       else (hGet s.history ((s.endIdx + 1) % XD_HISTORY_MAX)).capacity⟩}
       else {s with startIdx := (s.startIdx + 1) % XD_HISTORY_MAX,
                    endIdx := (s.endIdx + 1) % XD_HISTORY_MAX,
                    history := s.history.set ((s.endIdx + 1) % XD_HISTORY_MAX)
                      ⟨stripTrailingLF x,
                       if (stripTrailingLF x).length >
                           (hGet s.history ((s.endIdx + 1) % XD_HISTORY_MAX)).capacity - 1
                       then roundUpLineMax ((stripTrailingLF x).length + 1)
                       else (hGet s.history ((s.endIdx + 1) % XD_HISTORY_MAX)).capacity⟩}) := by
    unfold xd_readline_history_add
    dsimp only
    split_ifs with h1 h2 h2 <;> simp_all
  rw [hone]
  simp only [XD_HISTORY_MAX]
  by_cases hfull : s.histLen < 4
  · rw [if_pos hfull, if_pos hfull]
    set e' : HistEntry := ⟨stripTrailingLF x, _⟩ with he'
    refine ⟨⟨by simpa using hlen5, hs4, by dsimp only; omega, by dsimp only; omega, by dsimp only; omega⟩, by dsimp only; omega, ?_⟩
    simp only [xd_readline_history_print_order, XD_HISTORY_MAX]
    rw [List.range_succ, List.map_append]
    congr 1
    · apply List.map_congr_left
      intro i hi
      rw [List.mem_range] at hi
      dsimp only
      rw [hGet_set_ne]
      omega
    · simp only [List.map_cons, List.map_nil]
      rw [show (s.startIdx + s.histLen) % 4 = (s.endIdx + 1) % 4 by omega]
      rw [hGet_set_self _ (by omega)]
  · rw [if_neg hfull, if_neg hfull]
    have hl : s.histLen = 4 := by omega
    have hnewEnd : (s.endIdx + 1) % 4 = s.startIdx := by omega
    refine ⟨⟨by simpa using hlen5, by dsimp only; omega, by dsimp only; omega, by dsimp only; omega, by dsimp only; omega⟩, by dsimp only; omega, ?_⟩
    simp only [xd_readline_history_print_order, XD_HISTORY_MAX, hl]
    rw [show List.range 4 = [0, 1, 2, 3] from rfl]
    simp only [List.map_cons, List.map_nil, List.tail_cons]
    rw [hnewEnd]
    have g1 : ((s.startIdx + 1) % 4 + 0) % 4 = (s.startIdx + 1) % 4 := by omega
    have g2 : ((s.startIdx + 1) % 4 + 1) % 4 = (s.startIdx + 2) % 4 := by omega
    have g3 : ((s.startIdx + 1) % 4 + 2) % 4 = (s.startIdx + 3) % 4 := by omega
    have g4 : ((s.startIdx + 1) % 4 + 3) % 4 = s.startIdx := by omega
    rw [g1, g2, g3, g4]
    rw [hGet_set_ne _ (by omega), hGet_set_ne _ (by omega), hGet_set_ne _ (by omega),
      hGet_set_self _ (by omega)]
    simp

/-- Folding successful adds: ring validity is preserved, `len`
saturates, and the print order is the last (up to) `H` of the previous
order followed by the stripped added strings. -/
theorem history_add_all_spec (adds : List (List Nat)) : ∀ s : XdState,
    HistRingOk s →
    HistRingOk (historyAddAll adds s) ∧
    (historyAddAll adds s).histLen = min (s.histLen + adds.length) 4 ∧
    xd_readline_history_print_order (historyAddAll adds s)
      = ((xd_readline_history_print_order s ++ adds.map stripTrailingLF).drop
          ((xd_readline_history_print_order s ++ adds.map stripTrailingLF).length
            - 4)) := by
  induction adds with
  | nil =>
    intro s hOk
    have hlen := print_order_length s
    have hl4 : s.histLen ≤ 4 := by
      obtain ⟨-, -, -, h, -⟩ := hOk
      exact h
    refine ⟨hOk, by simp [historyAddAll]; omega, ?_⟩
    simp only [historyAddAll, List.foldl_nil, List.map_nil, List.append_nil]
    rw [show (xd_readline_history_print_order s).length - 4 = 0 by omega,
      List.drop_zero]
  | cons x rest ih =>
    intro s hOk
    obtain ⟨hOk1, hlen1, hord1⟩ := history_add_step s x hOk
    have hstep : historyAddAll (x :: rest) s
        = historyAddAll rest (xd_readline_history_add true (some x) s).2 := rfl
    obtain ⟨hOk2, hlen2, hord2⟩ := ih (xd_readline_history_add true (some x) s).2 hOk1
    rw [hstep]
    have hlen0 := print_order_length s
    have hl4 : s.histLen ≤ 4 := by
      obtain ⟨-, -, -, h, -⟩ := hOk
      exact h
    refine ⟨hOk2, ?_, ?_⟩
    · rw [hlen2, hlen1]
      simp only [List.length_cons]
      omega
    · rw [hord2, hord1]
      by_cases hfull : s.histLen < 4
      · rw [if_pos hfull]
        simp only [List.map_cons, List.append_assoc, List.singleton_append]
      · rw [if_neg hfull]
        have hl : s.histLen = 4 := by omega
        simp only [List.map_cons]
        rw [List.append_assoc, List.singleton_append]
        have hDrop1 : (xd_readline_history_print_order s
              ++ (stripTrailingLF x :: rest.map stripTrailingLF)).drop 1
            = (xd_readline_history_print_order s).tail
              ++ (stripTrailingLF x :: rest.map stripTrailingLF) := by
          rw [List.drop_append_of_le_length (by omega), List.drop_one]
        rw [← hDrop1, List.drop_drop]
        congr 1
        simp only [List.length_drop, List.length_append, List.length_cons, hlen0, hl]
        omega

/-- Claim C3: after `H + k` successful adds (`k > 0`), `len = H` and
iterating from `start` for `len` entries modulo `H` yields exactly the
last `H` added strings in insertion order, each stripped of one
trailing LF when present. -/
theorem C3_history_ring_capacity (s : XdState) (adds : List (List Nat)) (k : Nat)
    (hOk : HistRingOk s) (hlen : adds.length = XD_HISTORY_MAX + k) (hk : 0 < k) :
    (historyAddAll adds s).histLen = XD_HISTORY_MAX ∧
    xd_readline_history_print_order (historyAddAll adds s)
      = (adds.map stripTrailingLF).drop k := by
  obtain ⟨hOk', hlen', hord⟩ := history_add_all_spec adds s hOk
  have hl0 := print_order_length s
  have hl4 : s.histLen ≤ 4 := by
    obtain ⟨-, -, -, h, -⟩ := hOk
    exact h
  simp only [XD_HISTORY_MAX] at *
  constructor
  · rw [hlen']
    omega
  · rw [hord]
    rw [show (xd_readline_history_print_order s ++ adds.map stripTrailingLF).length - 4
        = (xd_readline_history_print_order s).length + k from by
          simp only [List.length_append, List.length_map, hlen, hl0]
          omega]
    rw [List.drop_append]

/-- Witness for C3 at a concrete input: five adds into an empty ring of
capacity 4 keep the last four, in order. -/
theorem C3_witness :
    (historyAddAll [[111], [112], [113], [114], [115]] xdBase).histLen = 4 ∧
    xd_readline_history_print_order
        (historyAddAll [[111], [112], [113], [114], [115]] xdBase)
      = [[112], [113], [114], [115]] := by
  have h := C3_history_ring_capacity xdBase [[111], [112], [113], [114], [115]] 1
    (by constructor <;> decide) (by decide) (by decide)
  refine ⟨h.1, ?_⟩
  rw [h.2]
  decide

/-! ## C4 -/

theorem xd_esc_scan_fst_mem {t : List EscBinding} {l : List Nat} {a : EscAction}
    (h : (xd_esc_scan t l).1 = some a) : (l, a) ∈ t := by
  induction t with
  | nil => simp [xd_esc_scan] at h
  | cons b rest ih =>
    simp only [xd_esc_scan] at h
    split_ifs at h with hb
    · simp only [Option.some.injEq] at h
      rw [hb, ← h]
      simp
    · exact List.mem_cons_of_mem _ (ih h)

theorem xd_esc_scan_fst_of_mem {t : List EscBinding}
    (hnd : (t.map Prod.fst).Nodup) {l : List Nat} {a : EscAction}
    (hm : (l, a) ∈ t) : (xd_esc_scan t l).1 = some a := by
  induction t with
  | nil => simp at hm
  | cons b rest ih =>
    simp only [List.map_cons, List.nodup_cons] at hnd
    simp only [xd_esc_scan]
    rcases List.mem_cons.1 hm with h | h
    · rw [if_pos (by rw [← h])]
      rw [← h]
    · have hne : l ≠ b.1 := by
        intro he
        exact hnd.1 (he ▸ List.mem_map_of_mem Prod.fst h)
      rw [if_neg hne]
      exact ih hnd.2 h

theorem xd_esc_scan_fst_eq_none {t : List EscBinding} {l : List Nat} :
    (xd_esc_scan t l).1 = none ↔ ∀ p ∈ t, l ≠ p.1 := by
  induction t with
  | nil => simp [xd_esc_scan]
  | cons b rest ih =>
    simp only [xd_esc_scan]
    constructor
    · intro h
      split_ifs at h with hb
      intro p hp
      rcases List.mem_cons.1 hp with hpe | hpe
      · subst hpe
        exact hb
      · exact ih.1 h p hpe
    · intro h
      rw [if_neg (h b (List.mem_cons_self _ _))]
      exact ih.2 (fun p hp => h p (List.mem_cons_of_mem _ hp))

theorem xd_esc_scan_snd_of_none {t : List EscBinding} {l : List Nat}
    (h : (xd_esc_scan t l).1 = none) :
    (xd_esc_scan t l).2 = t.any (fun p => l.isPrefixOf p.1) := by
  induction t with
  | nil => simp [xd_esc_scan]
  | cons b rest ih =>
    simp only [xd_esc_scan] at h ⊢
    split_ifs at h with hb
    rw [if_neg hb]
    dsimp only
    rw [ih h, List.any_cons, Bool.or_comm]

/-- Under distinct binding sequences, the per-byte scan outcome does
not depend on the table order. -/
theorem xd_esc_scan_perm {t t' : List EscBinding} (hp : t.Perm t')
    (hnd : (t.map Prod.fst).Nodup) (l : List Nat) :
    (xd_esc_scan t l).1 = (xd_esc_scan t' l).1 ∧
    ((xd_esc_scan t l).1 = none →
      (xd_esc_scan t l).2 = (xd_esc_scan t' l).2) := by
  have hnd' : (t'.map Prod.fst).Nodup := ((hp.map Prod.fst).nodup_iff).1 hnd
  constructor
  · cases hfst : (xd_esc_scan t l).1 with
    | some a =>
      have hm := xd_esc_scan_fst_mem hfst
      rw [xd_esc_scan_fst_of_mem hnd' (hp.mem_iff.1 hm)]
    | none =>
      rw [eq_comm, xd_esc_scan_fst_eq_none]
      intro p hpm
      exact xd_esc_scan_fst_eq_none.1 hfst p (hp.mem_iff.2 hpm)
  · intro h
    have h' : (xd_esc_scan t' l).1 = none := by
      rw [xd_esc_scan_fst_eq_none]
      intro p hpm
      exact xd_esc_scan_fst_eq_none.1 h p (hp.mem_iff.2 hpm)
    rw [xd_esc_scan_snd_of_none h, xd_esc_scan_snd_of_none h']
    cases hany : t.any (fun p => l.isPrefixOf p.1) with
    | true =>
      obtain ⟨p, hpm, hpp⟩ := List.any_eq_true.1 hany
      rw [eq_comm]
      exact List.any_eq_true.2 ⟨p, hp.mem_iff.1 hpm, hpp⟩
    | false =>
      rw [eq_comm, List.any_eq_false]
      intro p hpm
      exact List.any_eq_false.1 hany p (hp.mem_iff.2 hpm)

/-- The decoder outcome (and the unconsumed input) is invariant under
any permutation of the concrete binding table. -/
theorem xd_esc_loop_perm (t' : List EscBinding)
    (hp : xd_esc_seq_bindings.Perm t') :
    ∀ (input staged : List Nat),
      xd_esc_loop t' staged input = xd_esc_loop xd_esc_seq_bindings staged input := by
  have hnd : (xd_esc_seq_bindings.map Prod.fst).Nodup := by decide
  intro input
  induction input with
  | nil =>
    intro staged
    rfl
  | cons c rest ih =>
    intro staged
    rw [xd_esc_loop, xd_esc_loop]
    by_cases hlen : staged.length < 31
    · rw [if_pos hlen, if_pos hlen]
      dsimp only
      have hsc := xd_esc_scan_perm hp hnd (staged ++ [c])
      cases hscan : (xd_esc_scan xd_esc_seq_bindings (staged ++ [c])).1 with
      | some a =>
        have h' : (xd_esc_scan t' (staged ++ [c])).1 = some a := by
          rw [← hsc.1, hscan]
        rw [h']
      | none =>
        have h' : (xd_esc_scan t' (staged ++ [c])).1 = none := by
          rw [← hsc.1, hscan]
        have h2 := hsc.2 hscan
        rw [h']
        rw [← h2]
        by_cases hpf : (xd_esc_scan xd_esc_seq_bindings (staged ++ [c])).2 = true
        · rw [hpf]
          dsimp only
          exact ih (staged ++ [c])
        · rw [Bool.not_eq_true] at hpf
          rw [hpf]
          rfl
    · rw [if_neg hlen, if_neg hlen]

/-- Claim C4: after an ESC byte, each newly read byte is staged and
(1) an exact match with a binding sequence immediately invokes that
binding's handler; (2) with no exact match, a (strict) prefix of some
binding sequence continues reading; (3) otherwise the staged bytes are
discarded; (4) when no handler was invoked the editor state is left
completely unchanged; and (5) the decoder outcome and consumed input
are invariant under any permutation of the binding table. -/
theorem C4_escape_decoder :
    (∀ (staged : List Nat) (c : Nat) (rest : List Nat) (a : EscAction),
       staged.length < 31 →
       (staged ++ [c], a) ∈ xd_esc_seq_bindings →
       xd_esc_loop xd_esc_seq_bindings staged (c :: rest)
         = (EscOutcome.invoked a, rest)) ∧
    (∀ (staged : List Nat) (c : Nat) (rest : List Nat),
       staged.length < 31 →
       (∀ a, (staged ++ [c], a) ∉ xd_esc_seq_bindings) →
       (∃ b ∈ xd_esc_seq_bindings, (staged ++ [c]).isPrefixOf b.1) →
       xd_esc_loop xd_esc_seq_bindings staged (c :: rest)
         = xd_esc_loop xd_esc_seq_bindings (staged ++ [c]) rest) ∧
    (∀ (staged : List Nat) (c : Nat) (rest : List Nat),
       staged.length < 31 →
       (∀ a, (staged ++ [c], a) ∉ xd_esc_seq_bindings) →
       (∀ b ∈ xd_esc_seq_bindings, ¬((staged ++ [c]).isPrefixOf b.1 = true)) →
       xd_esc_loop xd_esc_seq_bindings staged (c :: rest)
         = (EscOutcome.discardedSeq, rest)) ∧
    (∀ (allocOk : Bool) (s : XdState) (input : List Nat),
       (∀ a, (xd_esc_loop xd_esc_seq_bindings [27] input).1
           ≠ EscOutcome.invoked a) →
       (xd_input_handle_escape_sequence allocOk s input).1 = s) ∧
    (∀ (t' : List EscBinding), xd_esc_seq_bindings.Perm t' →
       ∀ (staged input : List Nat),
         xd_esc_loop t' staged input
           = xd_esc_loop xd_esc_seq_bindings staged input) := by
  have hnd : (xd_esc_seq_bindings.map Prod.fst).Nodup := by decide
  refine ⟨?_, ?_, ?_, ?_, ?_⟩
  · intro staged c rest a hlen hm
    rw [xd_esc_loop, if_pos hlen]
    dsimp only
    rw [xd_esc_scan_fst_of_mem hnd hm]
  · intro staged c rest hlen hnm hpre
    have hnone : (xd_esc_scan xd_esc_seq_bindings (staged ++ [c])).1 = none := by
      rw [xd_esc_scan_fst_eq_none]
      intro p hp he
      exact hnm p.2 (by rw [he]; simpa using hp)
    have hany : xd_esc_seq_bindings.any
        (fun p => (staged ++ [c]).isPrefixOf p.1) = true := by
      obtain ⟨b, hb, hbp⟩ := hpre
      exact List.any_eq_true.2 ⟨b, hb, hbp⟩
    rw [xd_esc_loop, if_pos hlen]
    dsimp only
    rw [hnone]
    rw [xd_esc_scan_snd_of_none hnone, hany]
    rfl
  · intro staged c rest hlen hnm hpre
    have hnone : (xd_esc_scan xd_esc_seq_bindings (staged ++ [c])).1 = none := by
      rw [xd_esc_scan_fst_eq_none]
      intro p hp he
      exact hnm p.2 (by rw [he]; simpa using hp)
    have hany : xd_esc_seq_bindings.any
        (fun p => (staged ++ [c]).isPrefixOf p.1) = false := by
      rw [List.any_eq_false]
      intro p hp
      exact hpre p hp
    rw [xd_esc_loop, if_pos hlen]
    dsimp only
    rw [hnone]
    rw [xd_esc_scan_snd_of_none hnone, hany]
    rfl
  · intro allocOk s input hno
    unfold xd_input_handle_escape_sequence
    dsimp only
    cases ho : (xd_esc_loop xd_esc_seq_bindings [27] input).1 with
    | invoked a => exact absurd ho (hno a)
    | discardedSeq => rfl
    | abortedRead => rfl
  · exact fun t' hp staged input => xd_esc_loop_perm t' hp input staged

/-- Witness for C4 at concrete inputs: ESC `[ A` invokes the Up-Arrow
binding (consuming nothing further); ESC `[ 3 ~` resolves through two
prefix continuations to the Delete binding; the reversed binding table
decodes an unrecognized sequence identically. -/
theorem C4_witness :
    xd_esc_loop xd_esc_seq_bindings [27, 91] [65, 99]
      = (EscOutcome.invoked EscAction.upArrow, [99]) ∧
    xd_esc_loop xd_esc_seq_bindings [27] [91, 51, 126]
      = (EscOutcome.invoked EscAction.deleteKey, []) ∧
    xd_esc_loop xd_esc_seq_bindings.reverse [27] [91, 90, 7]
      = xd_esc_loop xd_esc_seq_bindings [27] [91, 90, 7] := by
  have h := C4_escape_decoder
  refine ⟨h.1 [27, 91] 65 [99] EscAction.upArrow (by decide) (by decide), ?_, ?_⟩
  · have e1 : xd_esc_loop xd_esc_seq_bindings [27] [91, 51, 126]
        = xd_esc_loop xd_esc_seq_bindings [27, 91] [51, 126] :=
      h.2.1 [27] 91 [51, 126] (by decide) (by intro a; cases a <;> decide) (by decide)
    have e2 : xd_esc_loop xd_esc_seq_bindings [27, 91] [51, 126]
        = xd_esc_loop xd_esc_seq_bindings [27, 91, 51] [126] :=
      h.2.1 [27, 91] 51 [126] (by decide) (by intro a; cases a <;> decide) (by decide)
    have e3 : xd_esc_loop xd_esc_seq_bindings [27, 91, 51] [126]
        = (EscOutcome.invoked EscAction.deleteKey, []) :=
      h.1 [27, 91, 51] 126 [] EscAction.deleteKey (by decide) (by decide)
    rw [e1, e2, e3]
  · exact h.2.2.2.2 xd_esc_seq_bindings.reverse
      (List.reverse_perm xd_esc_seq_bindings).symm [27] [91, 90, 7]

/-! ## C2 -/

theorem xd_tty_write_ghost (d : List Nat) (s : XdState) :
    (xd_tty_write d s).finished = s.finished ∧
    (xd_tty_write d s).retNull = s.retNull ∧
    (xd_tty_write d s).exitReason = s.exitReason ∧
    (xd_tty_write d s).inputBuffer = s.inputBuffer := by
  unfold xd_tty_write
  split <;> simp

theorem xd_tty_bell_ghost (s : XdState) :
    (xd_tty_bell s).finished = s.finished ∧
    (xd_tty_bell s).retNull = s.retNull ∧
    (xd_tty_bell s).exitReason = s.exitReason ∧
    (xd_tty_bell s).inputBuffer = s.inputBuffer := by
  unfold xd_tty_bell
  exact xd_tty_write_ghost _ _

theorem xd_tty_write_track_ghost (d : List Nat) (s : XdState) :
    (xd_tty_write_track d s).finished = s.finished ∧
    (xd_tty_write_track d s).retNull = s.retNull ∧
    (xd_tty_write_track d s).exitReason = s.exitReason ∧
    (xd_tty_write_track d s).inputBuffer = s.inputBuffer := by
  unfold xd_tty_write_track
  split
  · simp
  · dsimp only
    split <;> simp [xd_tty_write] <;> split <;> simp

theorem move_left_wrap_ghost (n : Int) (s : XdState) :
    (xd_tty_cursor_move_left_wrap n s).finished = s.finished ∧
    (xd_tty_cursor_move_left_wrap n s).retNull = s.retNull ∧
    (xd_tty_cursor_move_left_wrap n s).exitReason = s.exitReason ∧
    (xd_tty_cursor_move_left_wrap n s).inputBuffer = s.inputBuffer := by
  unfold xd_tty_cursor_move_left_wrap
  split
  · simp
  · dsimp only
    split <;> simp

theorem move_right_wrap_ghost (n : Int) (s : XdState) :
    (xd_tty_cursor_move_right_wrap n s).finished = s.finished ∧
    (xd_tty_cursor_move_right_wrap n s).retNull = s.retNull ∧
    (xd_tty_cursor_move_right_wrap n s).exitReason = s.exitReason ∧
    (xd_tty_cursor_move_right_wrap n s).inputBuffer = s.inputBuffer := by
  unfold xd_tty_cursor_move_right_wrap
  split
  · simp
  · dsimp only
    split <;> simp

theorem clearRowsLoop_ghost (k : Nat) : ∀ s : XdState,
    (clearRowsLoop k s).finished = s.finished ∧
    (clearRowsLoop k s).retNull = s.retNull ∧
    (clearRowsLoop k s).exitReason = s.exitReason ∧
    (clearRowsLoop k s).inputBuffer = s.inputBuffer := by
  induction k with
  | zero => intro s; simp [clearRowsLoop]
  | succ m ih =>
    intro s
    cases m with
    | zero => simp [clearRowsLoop]
    | succ m' =>
      have hstep : clearRowsLoop (m' + 1 + 1) s = clearRowsLoop (m' + 1)
          {s with output := (s.output ++ [OutItem.clearLine]) ++ [OutItem.moveUp 1],
                  cursorCol := 1, cursorRow := s.cursorRow - 1} := rfl
      rw [hstep]
      simpa using ih _

theorem xd_tty_input_clear_ghost (s : XdState) :
    (xd_tty_input_clear s).finished = s.finished ∧
    (xd_tty_input_clear s).retNull = s.retNull ∧
    (xd_tty_input_clear s).exitReason = s.exitReason ∧
    (xd_tty_input_clear s).inputBuffer = s.inputBuffer := by
  unfold xd_tty_input_clear
  dsimp only
  have h1 := move_right_wrap_ghost ((s.charsCount : Int) - flatPos s) s
  have h2 := clearRowsLoop_ghost
    (((xd_tty_cursor_move_right_wrap ((s.charsCount : Int) - flatPos s) s).charsCount +
      (xd_tty_cursor_move_right_wrap ((s.charsCount : Int) - flatPos s) s).winWidth) /
      (xd_tty_cursor_move_right_wrap ((s.charsCount : Int) - flatPos s) s).winWidth)
    (xd_tty_cursor_move_right_wrap ((s.charsCount : Int) - flatPos s) s)
  refine ⟨?_, ?_, ?_, ?_⟩ <;> simp [h1.1, h1.2.1, h1.2.2.1, h1.2.2.2,
    h2.1, h2.2.1, h2.2.2.1, h2.2.2.2]

theorem xd_tty_input_redraw_ghost (s : XdState) :
    (xd_tty_input_redraw s).finished = s.finished ∧
    (xd_tty_input_redraw s).retNull = s.retNull ∧
    (xd_tty_input_redraw s).exitReason = s.exitReason ∧
    (xd_tty_input_redraw s).inputBuffer = s.inputBuffer := by
  unfold xd_tty_input_redraw
  dsimp only
  simp [xd_tty_input_clear_ghost, xd_tty_write_track_ghost, move_left_wrap_ghost]

theorem xd_input_buffer_insert_ghost (c : Nat) (s : XdState) :
    (xd_input_buffer_insert c s).finished = s.finished ∧
    (xd_input_buffer_insert c s).retNull = s.retNull ∧
    (xd_input_buffer_insert c s).exitReason = s.exitReason := by
  unfold xd_input_buffer_insert
  simp

theorem xd_input_buffer_remove_before_cursor_ghost (n : Nat) (s : XdState) :
    (xd_input_buffer_remove_before_cursor n s).finished = s.finished ∧
    (xd_input_buffer_remove_before_cursor n s).retNull = s.retNull ∧
    (xd_input_buffer_remove_before_cursor n s).exitReason = s.exitReason := by
  unfold xd_input_buffer_remove_before_cursor
  split <;> simp

theorem xd_input_buffer_remove_from_cursor_ghost (n : Nat) (s : XdState) :
    (xd_input_buffer_remove_from_cursor n s).finished = s.finished ∧
    (xd_input_buffer_remove_from_cursor n s).retNull = s.retNull ∧
    (xd_input_buffer_remove_from_cursor n s).exitReason = s.exitReason := by
  unfold xd_input_buffer_remove_from_cursor
  split <;> simp

theorem save_to_history_ghost (allocOk : Bool) (s : XdState) :
    (xd_input_buffer_save_to_history allocOk s).finished = s.finished ∧
    (xd_input_buffer_save_to_history allocOk s).retNull = s.retNull ∧
    (xd_input_buffer_save_to_history allocOk s).exitReason = s.exitReason := by
  unfold xd_input_buffer_save_to_history
  dsimp only
  split_ifs <;> simp

theorem load_from_history_ghost (allocOk : Bool) (s : XdState) :
    (xd_input_buffer_load_from_history allocOk s).finished = s.finished ∧
    (xd_input_buffer_load_from_history allocOk s).retNull = s.retNull ∧
    (xd_input_buffer_load_from_history allocOk s).exitReason = s.exitReason := by
  unfold xd_input_buffer_load_from_history
  dsimp only
  split_ifs <;> simp

theorem xd_input_handle_printable_ghost (c : Nat) (s : XdState) :
    (xd_input_handle_printable c s).finished = s.finished ∧
    (xd_input_handle_printable c s).retNull = s.retNull ∧
    (xd_input_handle_printable c s).exitReason = s.exitReason := by
  unfold xd_input_handle_printable
  dsimp only
  split_ifs <;>
    simp [xd_tty_write_track_ghost, xd_input_buffer_insert_ghost]

theorem xd_input_handle_ctrl_a_ghost (s : XdState) :
    (xd_input_handle_ctrl_a s).finished = s.finished ∧
    (xd_input_handle_ctrl_a s).retNull = s.retNull ∧
    (xd_input_handle_ctrl_a s).exitReason = s.exitReason := by
  unfold xd_input_handle_ctrl_a
  split_ifs <;> simp [move_left_wrap_ghost]

theorem xd_input_handle_ctrl_b_ghost (s : XdState) :
    (xd_input_handle_ctrl_b s).finished = s.finished ∧
    (xd_input_handle_ctrl_b s).retNull = s.retNull ∧
    (xd_input_handle_ctrl_b s).exitReason = s.exitReason := by
  unfold xd_input_handle_ctrl_b
  split_ifs <;> simp [move_left_wrap_ghost, xd_tty_bell_ghost]

theorem xd_input_handle_ctrl_e_ghost (s : XdState) :
    (xd_input_handle_ctrl_e s).finished = s.finished ∧
    (xd_input_handle_ctrl_e s).retNull = s.retNull ∧
    (xd_input_handle_ctrl_e s).exitReason = s.exitReason := by
  unfold xd_input_handle_ctrl_e
  split_ifs <;> simp [move_right_wrap_ghost]

theorem xd_input_handle_ctrl_f_ghost (s : XdState) :
    (xd_input_handle_ctrl_f s).finished = s.finished ∧
    (xd_input_handle_ctrl_f s).retNull = s.retNull ∧
    (xd_input_handle_ctrl_f s).exitReason = s.exitReason := by
  unfold xd_input_handle_ctrl_f
  split_ifs <;> simp [move_right_wrap_ghost, xd_tty_bell_ghost]

theorem xd_input_handle_ctrl_g_ghost (s : XdState) :
    (xd_input_handle_ctrl_g s).finished = s.finished ∧
    (xd_input_handle_ctrl_g s).retNull = s.retNull ∧
    (xd_input_handle_ctrl_g s).exitReason = s.exitReason := by
  unfold xd_input_handle_ctrl_g
  simp [xd_tty_bell_ghost]

theorem xd_input_handle_ctrl_h_ghost (s : XdState) :
    (xd_input_handle_ctrl_h s).finished = s.finished ∧
    (xd_input_handle_ctrl_h s).retNull = s.retNull ∧
    (xd_input_handle_ctrl_h s).exitReason = s.exitReason := by
  unfold xd_input_handle_ctrl_h
  split_ifs <;>
    simp [xd_tty_bell_ghost, xd_input_buffer_remove_before_cursor_ghost]

theorem xd_input_handle_ctrl_k_ghost (s : XdState) :
    (xd_input_handle_ctrl_k s).finished = s.finished ∧
    (xd_input_handle_ctrl_k s).retNull = s.retNull ∧
    (xd_input_handle_ctrl_k s).exitReason = s.exitReason := by
  unfold xd_input_handle_ctrl_k
  split_ifs <;>
    simp [xd_tty_bell_ghost, xd_input_buffer_remove_from_cursor_ghost]

theorem xd_input_handle_ctrl_l_ghost (s : XdState) :
    (xd_input_handle_ctrl_l s).finished = s.finished ∧
    (xd_input_handle_ctrl_l s).retNull = s.retNull ∧
    (xd_input_handle_ctrl_l s).exitReason = s.exitReason := by
  unfold xd_input_handle_ctrl_l
  simp

theorem xd_input_handle_ctrl_u_ghost (s : XdState) :
    (xd_input_handle_ctrl_u s).finished = s.finished ∧
    (xd_input_handle_ctrl_u s).retNull = s.retNull ∧
    (xd_input_handle_ctrl_u s).exitReason = s.exitReason := by
  unfold xd_input_handle_ctrl_u
  split_ifs <;>
    simp [xd_tty_bell_ghost, xd_input_buffer_remove_before_cursor_ghost]

theorem xd_input_handle_delete_ghost (s : XdState) :
    (xd_input_handle_delete s).finished = s.finished ∧
    (xd_input_handle_delete s).retNull = s.retNull ∧
    (xd_input_handle_delete s).exitReason = s.exitReason := by
  unfold xd_input_handle_delete
  split_ifs <;>
    simp [xd_tty_bell_ghost, xd_input_buffer_remove_from_cursor_ghost]

theorem xd_input_handle_up_arrow_ghost (allocOk : Bool) (s : XdState) :
    (xd_input_handle_up_arrow allocOk s).finished = s.finished ∧
    (xd_input_handle_up_arrow allocOk s).retNull = s.retNull ∧
    (xd_input_handle_up_arrow allocOk s).exitReason = s.exitReason := by
  unfold xd_input_handle_up_arrow
  split_ifs <;>
    simp [xd_tty_bell_ghost, save_to_history_ghost, load_from_history_ghost,
      apply_ite XdState.finished, apply_ite XdState.retNull,
      apply_ite XdState.exitReason]

theorem xd_input_handle_down_arrow_ghost (allocOk : Bool) (s : XdState) :
    (xd_input_handle_down_arrow allocOk s).finished = s.finished ∧
    (xd_input_handle_down_arrow allocOk s).retNull = s.retNull ∧
    (xd_input_handle_down_arrow allocOk s).exitReason = s.exitReason := by
  unfold xd_input_handle_down_arrow
  split_ifs <;>
    simp [xd_tty_bell_ghost, save_to_history_ghost, load_from_history_ghost,
      apply_ite XdState.finished, apply_ite XdState.retNull,
      apply_ite XdState.exitReason]

theorem xd_input_handle_alt_f_ghost (s : XdState) :
    (xd_input_handle_alt_f s).finished = s.finished ∧
    (xd_input_handle_alt_f s).retNull = s.retNull ∧
    (xd_input_handle_alt_f s).exitReason = s.exitReason := by
  unfold xd_input_handle_alt_f
  split_ifs <;> simp [xd_tty_bell_ghost, move_right_wrap_ghost]

theorem xd_input_handle_alt_b_ghost (s : XdState) :
    (xd_input_handle_alt_b s).finished = s.finished ∧
    (xd_input_handle_alt_b s).retNull = s.retNull ∧
    (xd_input_handle_alt_b s).exitReason = s.exitReason := by
  unfold xd_input_handle_alt_b
  split_ifs <;> simp [xd_tty_bell_ghost, move_left_wrap_ghost]

theorem xd_input_handle_alt_d_ghost (s : XdState) :
    (xd_input_handle_alt_d s).finished = s.finished ∧
    (xd_input_handle_alt_d s).retNull = s.retNull ∧
    (xd_input_handle_alt_d s).exitReason = s.exitReason := by
  unfold xd_input_handle_alt_d
  split_ifs <;>
    simp [xd_tty_bell_ghost, xd_input_buffer_remove_from_cursor_ghost]

theorem xd_input_handle_alt_backspace_ghost (s : XdState) :
    (xd_input_handle_alt_backspace s).finished = s.finished ∧
    (xd_input_handle_alt_backspace s).retNull = s.retNull ∧
    (xd_input_handle_alt_backspace s).exitReason = s.exitReason := by
  unfold xd_input_handle_alt_backspace
  split_ifs <;>
    simp [xd_tty_bell_ghost, xd_input_buffer_remove_before_cursor_ghost]

theorem applyEscAction_ghost (allocOk : Bool) (a : EscAction) (s : XdState) :
    (applyEscAction allocOk a s).finished = s.finished ∧
    (applyEscAction allocOk a s).retNull = s.retNull ∧
    (applyEscAction allocOk a s).exitReason = s.exitReason := by
  cases a <;>
    simp [applyEscAction, xd_input_handle_up_arrow_ghost,
      xd_input_handle_down_arrow_ghost, xd_input_handle_ctrl_f_ghost,
      xd_input_handle_ctrl_b_ghost, xd_input_handle_ctrl_a_ghost,
      xd_input_handle_ctrl_e_ghost, xd_input_handle_delete_ghost,
      xd_input_handle_alt_f_ghost, xd_input_handle_alt_b_ghost,
      xd_input_handle_alt_d_ghost, xd_input_handle_alt_backspace_ghost]

theorem xd_input_handle_enter_spec (s : XdState) :
    (xd_input_handle_enter s).finished = true ∧
    (xd_input_handle_enter s).retNull = s.retNull ∧
    (xd_input_handle_enter s).exitReason = some ExitReason.submit ∧
    (xd_input_handle_enter s).inputBuffer = s.inputBuffer ++ [10] := by
  unfold xd_input_handle_enter
  dsimp only
  simp [move_right_wrap_ghost]

theorem xd_input_handle_ctrl_d_spec (s : XdState) :
    (s.inputBuffer.length = 0 →
      xd_input_handle_ctrl_d s
        = {s with finished := true, retNull := true,
                  exitReason := some ExitReason.eotEmpty}) ∧
    (s.inputBuffer.length ≠ 0 →
      xd_input_handle_ctrl_d s = xd_input_handle_delete s) := by
  unfold xd_input_handle_ctrl_d
  constructor
  · intro h
    rw [if_pos h]
  · intro h
    rw [if_neg h]

/-- The remaining input returned by the escape decoder never grows. -/
theorem xd_esc_loop_consumption (t : List EscBinding) :
    ∀ (input staged : List Nat),
      (xd_esc_loop t staged input).2.length ≤ input.length := by
  intro input
  induction input with
  | nil =>
    intro staged
    rw [xd_esc_loop]
    split <;> simp
  | cons c rest ih =>
    intro staged
    rw [xd_esc_loop]
    split_ifs with hlen
    · dsimp only
      cases (xd_esc_scan t (staged ++ [c])).1 with
      | some a => simp
      | none =>
        dsimp only
        split_ifs with hpf
        · exact le_trans (ih (staged ++ [c])) (by simp)
        · simp
    · simp

/-- The control-byte dispatch never grows the remaining input. -/
theorem xd_input_handle_control_consumption (allocOk : Bool) (c : Nat)
    (s : XdState) (input : List Nat) :
    (xd_input_handle_control allocOk c s input).2.length ≤ input.length := by
  delta xd_input_handle_control
  by_cases h1 : c = 1
  · rw [if_pos h1]
  rw [if_neg h1]
  by_cases h2 : c = 2
  · rw [if_pos h2]
  rw [if_neg h2]
  by_cases h4 : c = 4
  · rw [if_pos h4]
  rw [if_neg h4]
  by_cases h5 : c = 5
  · rw [if_pos h5]
  rw [if_neg h5]
  by_cases h6 : c = 6
  · rw [if_pos h6]
  rw [if_neg h6]
  by_cases h7 : c = 7
  · rw [if_pos h7]
  rw [if_neg h7]
  by_cases h8 : c = 8
  · rw [if_pos h8]
  rw [if_neg h8]
  by_cases h10 : c = 10
  · rw [if_pos h10]
  rw [if_neg h10]
  by_cases h11 : c = 11
  · rw [if_pos h11]
  rw [if_neg h11]
  by_cases h12 : c = 12
  · rw [if_pos h12]
  rw [if_neg h12]
  by_cases h21 : c = 21
  · rw [if_pos h21]
  rw [if_neg h21]
  by_cases h27 : c = 27
  · rw [if_pos h27]
    delta xd_input_handle_escape_sequence
    dsimp only
    cases hl : (xd_esc_loop xd_esc_seq_bindings [27] input).1 <;>
      exact xd_esc_loop_consumption _ input [27]
  rw [if_neg h27]
  by_cases h127 : c = 127
  · rw [if_pos h127]
  rw [if_neg h127]

/-- One dispatched byte never grows the remaining input. -/
theorem xd_input_handler_consumption (allocOk : Bool) (c : Nat) (s : XdState)
    (input : List Nat) :
    (xd_input_handler allocOk c s input).2.length ≤ input.length := by
  delta xd_input_handler
  by_cases hp : xd_isprint c = true
  · rw [if_pos hp]
  rw [if_neg hp]
  by_cases hc : xd_iscntrl c = true
  · rw [if_pos hc]
    exact xd_input_handle_control_consumption allocOk c s input
  rw [if_neg hc]

/-- Classification of one dispatched byte's effect on the control
fields: either they are untouched, or the byte was Enter (submit with a
trailing LF appended), or it was EOT on an empty buffer. -/
theorem xd_input_handler_ghost (allocOk : Bool) (c : Nat) (s : XdState)
    (input : List Nat) :
    ((xd_input_handler allocOk c s input).1.exitReason = s.exitReason ∧
     (xd_input_handler allocOk c s input).1.finished = s.finished ∧
     (xd_input_handler allocOk c s input).1.retNull = s.retNull) ∨
    ((xd_input_handler allocOk c s input).1.exitReason = some ExitReason.submit ∧
     (xd_input_handler allocOk c s input).1.finished = true ∧
     (xd_input_handler allocOk c s input).1.retNull = s.retNull ∧
     (xd_input_handler allocOk c s input).1.inputBuffer.getLast? = some 10) ∨
    ((xd_input_handler allocOk c s input).1.exitReason
        = some ExitReason.eotEmpty ∧
     (xd_input_handler allocOk c s input).1.finished = true ∧
     (xd_input_handler allocOk c s input).1.retNull = true) := by
  delta xd_input_handler
  by_cases hp : xd_isprint c = true
  · rw [if_pos hp]
    obtain ⟨hf, hr, he⟩ := xd_input_handle_printable_ghost c s
    exact Or.inl ⟨he, hf, hr⟩
  rw [if_neg hp]
  by_cases hc : xd_iscntrl c = true
  case neg =>
    rw [if_neg hc]
    exact Or.inl ⟨rfl, rfl, rfl⟩
  rw [if_pos hc]
  delta xd_input_handle_control
  by_cases h1 : c = 1
  · rw [if_pos h1]
    obtain ⟨hf, hr, he⟩ := xd_input_handle_ctrl_a_ghost s
    exact Or.inl ⟨he, hf, hr⟩
  rw [if_neg h1]
  by_cases h2 : c = 2
  · rw [if_pos h2]
    obtain ⟨hf, hr, he⟩ := xd_input_handle_ctrl_b_ghost s
    exact Or.inl ⟨he, hf, hr⟩
  rw [if_neg h2]
  by_cases h4 : c = 4
  · rw [if_pos h4]
    by_cases hL : s.inputBuffer.length = 0
    · rw [(xd_input_handle_ctrl_d_spec s).1 hL]
      exact Or.inr (Or.inr ⟨rfl, rfl, rfl⟩)
    · rw [(xd_input_handle_ctrl_d_spec s).2 hL]
      obtain ⟨hf, hr, he⟩ := xd_input_handle_delete_ghost s
      exact Or.inl ⟨he, hf, hr⟩
  rw [if_neg h4]
  by_cases h5 : c = 5
  · rw [if_pos h5]
    obtain ⟨hf, hr, he⟩ := xd_input_handle_ctrl_e_ghost s
    exact Or.inl ⟨he, hf, hr⟩
  rw [if_neg h5]
  by_cases h6 : c = 6
  · rw [if_pos h6]
    obtain ⟨hf, hr, he⟩ := xd_input_handle_ctrl_f_ghost s
    exact Or.inl ⟨he, hf, hr⟩
  rw [if_neg h6]
  by_cases h7 : c = 7
  · rw [if_pos h7]
    obtain ⟨hf, hr, he⟩ := xd_input_handle_ctrl_g_ghost s
    exact Or.inl ⟨he, hf, hr⟩
  rw [if_neg h7]
  by_cases h8 : c = 8
  · rw [if_pos h8]
    obtain ⟨hf, hr, he⟩ := xd_input_handle_ctrl_h_ghost s
    exact Or.inl ⟨he, hf, hr⟩
  rw [if_neg h8]
  by_cases h10 : c = 10
  · rw [if_pos h10]
    obtain ⟨hf, hr, he, hb⟩ := xd_input_handle_enter_spec s
    refine Or.inr (Or.inl ⟨he, hf, hr, ?_⟩)
    rw [hb]
    exact List.getLast?_concat _
  rw [if_neg h10]
  by_cases h11 : c = 11
  · rw [if_pos h11]
    obtain ⟨hf, hr, he⟩ := xd_input_handle_ctrl_k_ghost s
    exact Or.inl ⟨he, hf, hr⟩
  rw [if_neg h11]
  by_cases h12 : c = 12
  · rw [if_pos h12]
    obtain ⟨hf, hr, he⟩ := xd_input_handle_ctrl_l_ghost s
    exact Or.inl ⟨he, hf, hr⟩
  rw [if_neg h12]
  by_cases h21 : c = 21
  · rw [if_pos h21]
    obtain ⟨hf, hr, he⟩ := xd_input_handle_ctrl_u_ghost s
    exact Or.inl ⟨he, hf, hr⟩
  rw [if_neg h21]
  by_cases h27 : c = 27
  · rw [if_pos h27]
    delta xd_input_handle_escape_sequence
    dsimp only
    cases (xd_esc_loop xd_esc_seq_bindings [27] input).1 with
    | invoked a =>
      obtain ⟨hf, hr, he⟩ := applyEscAction_ghost allocOk a s
      exact Or.inl ⟨he, hf, hr⟩
    | discardedSeq => exact Or.inl ⟨rfl, rfl, rfl⟩
    | abortedRead => exact Or.inl ⟨rfl, rfl, rfl⟩
  rw [if_neg h27]
  by_cases h127 : c = 127
  · rw [if_pos h127]
    obtain ⟨hf, hr, he⟩ := xd_input_handle_ctrl_h_ghost s
    exact Or.inl ⟨he, hf, hr⟩
  rw [if_neg h127]
  exact Or.inl ⟨rfl, rfl, rfl⟩


/-- The main loop preserves the control-field invariant. -/
theorem xdLoop_inv (allocOk : Bool) : ∀ (fuel : Nat) (s : XdState)
    (input : List Nat), LoopInv s → LoopInv (xdLoop allocOk fuel s input) := by
  intro fuel
  induction fuel with
  | zero =>
    intro s input hs
    rw [xdLoop]
    split_ifs with hf
    · exact hs
    · obtain ⟨i1, i2, i3, i4, i5, i6, i7⟩ := hs
      have hnone := i1 (by revert hf; cases s.finished <;> simp)
      refine ⟨by simp, ?_, by simp, by simp, by simp, by simp, ?_⟩
      · intro h
        simp at h
      · intro _
        simpa using i2 hnone
  | succ fuel ih =>
    intro s input hs
    rw [xdLoop]
    by_cases hf : s.finished = true
    · rw [if_pos hf]
      exact hs
    · rw [if_neg hf]
      obtain ⟨i1, i2, i3, i4, i5, i6, i7⟩ := hs
      have hfin : s.finished = false := by revert hf; cases s.finished <;> simp
      have hnone := i1 hfin
      have hret := i2 hnone
      have hred := xd_tty_input_redraw_ghost s
      dsimp only
      have h1 : (if s.redraw = true then
            {xd_tty_input_redraw s with redraw := false} else s).finished = false ∧
          (if s.redraw = true then
            {xd_tty_input_redraw s with redraw := false} else s).retNull = false ∧
          (if s.redraw = true then
            {xd_tty_input_redraw s with redraw := false} else s).exitReason = none := by
        split_ifs <;>
          simp [hred.1, hred.2.1, hred.2.2.1, hfin, hret, hnone]
      generalize hg1 : (if s.redraw = true then
          {xd_tty_input_redraw s with redraw := false} else s) = s1 at h1 ⊢
      obtain ⟨h1f, h1r, h1e⟩ := h1
      by_cases hac : s1.inputBuffer.length = s1.inputCapacity - 1 ∧ ¬allocOk = true
      · rw [if_pos hac]
        refine ⟨by simp, ?_, by simp, by simp, by simp, ?_, by simp⟩
        · intro h
          simp at h
        · intro _
          simpa using h1r
      · rw [if_neg hac]
        have h2 : (if s1.inputBuffer.length = s1.inputCapacity - 1 then
              {s1 with inputCapacity := s1.inputCapacity * 2} else s1).finished
                = false ∧
            (if s1.inputBuffer.length = s1.inputCapacity - 1 then
              {s1 with inputCapacity := s1.inputCapacity * 2} else s1).retNull
                = false ∧
            (if s1.inputBuffer.length = s1.inputCapacity - 1 then
              {s1 with inputCapacity := s1.inputCapacity * 2} else s1).exitReason
                = none := by
          split_ifs <;> simp [h1f, h1r, h1e]
        generalize hg2 : (if s1.inputBuffer.length = s1.inputCapacity - 1 then
            {s1 with inputCapacity := s1.inputCapacity * 2} else s1) = s2 at h2 ⊢
        obtain ⟨h2fin, h2ret, h2none⟩ := h2
        cases input with
        | nil =>
          refine ⟨by simp, ?_, ?_, ?_, fun _ => by simpa using rfl, ?_, ?_⟩ <;>
            · intro h
              simp at h
        | cons c rest =>
          apply ih
          rcases xd_input_handler_ghost allocOk c s2 rest with
            ⟨he, hf', hr⟩ | ⟨he, hf', hr, hb⟩ | ⟨he, hf', hr⟩
          · refine ⟨fun _ => ?_, fun _ => ?_, fun h => ?_, fun h => ?_,
              fun h => ?_, fun h => ?_, fun h => ?_⟩
            · rw [he, h2none]
            · rw [hr, h2ret]
            all_goals
              rw [he, h2none] at h
              exact Option.noConfusion h
          · refine ⟨fun h => ?_, fun h => ?_, fun _ => ?_, fun h => ?_,
              fun h => ?_, fun h => ?_, fun h => ?_⟩
            · rw [hf'] at h
              exact Bool.noConfusion h
            · rw [he] at h
              exact Option.noConfusion h
            · exact ⟨by rw [hr, h2ret], hb⟩
            all_goals
              rw [he] at h
              simp at h
          · refine ⟨fun h => ?_, fun h => ?_, fun h => ?_, fun _ => ?_,
              fun h => ?_, fun h => ?_, fun h => ?_⟩
            · rw [hf'] at h
              exact Bool.noConfusion h
            · rw [he] at h
              exact Option.noConfusion h
            · rw [he] at h
              simp at h
            · exact hr
            all_goals
              rw [he] at h
              simp at h

/-- With more fuel than input bytes, the loop never exits for lack of
fuel: the artificial fuel bound of the embedding is never the reason
control leaves the loop. -/
theorem xdLoop_no_fuelOut (allocOk : Bool) : ∀ (fuel : Nat) (s : XdState)
    (input : List Nat), input.length < fuel →
    s.exitReason ≠ some ExitReason.fuelOut →
    (xdLoop allocOk fuel s input).exitReason ≠ some ExitReason.fuelOut := by
  intro fuel
  induction fuel with
  | zero =>
    intro s input hlen _
    exact absurd hlen (by simp)
  | succ fuel ih =>
    intro s input hlen hs
    rw [xdLoop]
    by_cases hf : s.finished = true
    · rw [if_pos hf]
      exact hs
    · rw [if_neg hf]
      have hred := xd_tty_input_redraw_ghost s
      dsimp only
      have h1 : (if s.redraw = true then
          {xd_tty_input_redraw s with redraw := false} else s).exitReason
            = s.exitReason := by
        split_ifs <;> simp [hred.2.2.1]
      generalize hg1 : (if s.redraw = true then
          {xd_tty_input_redraw s with redraw := false} else s) = s1 at h1 ⊢
      by_cases hac : s1.inputBuffer.length = s1.inputCapacity - 1 ∧ ¬allocOk = true
      · rw [if_pos hac]
        simp
      · rw [if_neg hac]
        have h2 : (if s1.inputBuffer.length = s1.inputCapacity - 1 then
            {s1 with inputCapacity := s1.inputCapacity * 2} else s1).exitReason
              = s.exitReason := by
          split_ifs <;> simp [h1]
        generalize hg2 : (if s1.inputBuffer.length = s1.inputCapacity - 1 then
            {s1 with inputCapacity := s1.inputCapacity * 2} else s1) = s2 at h2 ⊢
        cases input with
        | nil => simp
        | cons c rest =>
          apply ih
          · have hcons := xd_input_handler_consumption allocOk c s2 rest
            have : rest.length < fuel := by
              simpa using Nat.lt_of_succ_lt_succ hlen
            omega
          · rcases xd_input_handler_ghost allocOk c s2 rest with
              ⟨he, _, _⟩ | ⟨he, _, _, _⟩ | ⟨he, _, _⟩
            · rw [he, h2]
              exact hs
            · rw [he]
              simp
            · rw [he]
              simp

/-- The return value of `xd_readline` as a function of the loop-exit
state: `none` exactly on empty-buffer EOT or EOF, and on submit the
buffer itself with its trailing LF. -/
theorem readline_pair_core (sL : XdState) (hinv : LoopInv sL)
    (hnf : sL.exitReason ≠ some ExitReason.fuelOut) :
    ((if sL.retNull = true then (none : Option (List Nat))
        else some sL.inputBuffer) = none ↔
      (sL.exitReason = some ExitReason.eotEmpty ∨
       sL.exitReason = some ExitReason.eofRead)) ∧
    (sL.exitReason = some ExitReason.submit →
      (if sL.retNull = true then (none : Option (List Nat))
        else some sL.inputBuffer) = some sL.inputBuffer ∧
      sL.inputBuffer.getLast? = some 10) := by
  obtain ⟨i1, i2, i3, i4, i5, i6, i7⟩ := hinv
  constructor
  · constructor
    · intro h
      cases hrn : sL.retNull
      · rw [if_neg (by simp [hrn])] at h
        exact Option.noConfusion h
      · rcases hre : sL.exitReason with _ | er
        · rw [i2 hre] at hrn
          exact Bool.noConfusion hrn
        · cases er
          · rw [(i3 hre).1] at hrn
            exact Bool.noConfusion hrn
          · exact Or.inl rfl
          · exact Or.inr rfl
          · rw [i6 hre] at hrn
            exact Bool.noConfusion hrn
          · exact absurd hre hnf
    · intro h
      have hrn : sL.retNull = true := by
        rcases h with h | h
        · exact i4 h
        · exact i5 h
      rw [if_pos hrn]
  · intro h
    have hrn : sL.retNull = false := (i3 h).1
    rw [if_neg (by simp [hrn])]
    exact ⟨rfl, (i3 h).2⟩

/-- C2: `xd_readline` returns `NULL` (modelled `none`) exactly when
the read ends by EOT on an empty buffer or by end-of-file on the
input; on submit (Enter) it returns the internal buffer, whose
accumulated bytes end in the appended line feed; the fuel bound of
the embedding is never the exit reason; and EOT with a non-empty
buffer performs exactly the Delete action, leaving the loop running
(`finished` and the return flag untouched). -/
theorem C2_readline_return_contract (allocOk : Bool) (s : XdState)
    (input : List Nat) :
    ((xd_readline allocOk s input).1 = none ↔
      ((xd_readline allocOk s input).2.exitReason = some ExitReason.eotEmpty ∨
       (xd_readline allocOk s input).2.exitReason = some ExitReason.eofRead)) ∧
    ((xd_readline allocOk s input).2.exitReason = some ExitReason.submit →
      (xd_readline allocOk s input).1
          = some (xd_readline allocOk s input).2.inputBuffer ∧
      (xd_readline allocOk s input).2.inputBuffer.getLast? = some 10) ∧
    ((xd_readline allocOk s input).2.exitReason ≠ some ExitReason.fuelOut) ∧
    (∀ t : XdState, t.inputBuffer.length ≠ 0 →
      xd_input_handle_ctrl_d t = xd_input_handle_delete t ∧
      (xd_input_handle_ctrl_d t).finished = t.finished ∧
      (xd_input_handle_ctrl_d t).retNull = t.retNull) := by
  have hctrld : ∀ t : XdState, t.inputBuffer.length ≠ 0 →
      xd_input_handle_ctrl_d t = xd_input_handle_delete t ∧
      (xd_input_handle_ctrl_d t).finished = t.finished ∧
      (xd_input_handle_ctrl_d t).retNull = t.retNull := by
    intro t ht
    have hspec := (xd_input_handle_ctrl_d_spec t).2 ht
    refine ⟨hspec, ?_, ?_⟩
    · rw [hspec]
      exact (xd_input_handle_delete_ghost t).1
    · rw [hspec]
      exact (xd_input_handle_delete_ghost t).2.1
  have hresetInv : LoopInv (xd_readline_reset s) := by
    refine ⟨?_, ?_, ?_, ?_, ?_, ?_, ?_⟩ <;> intro h <;>
      first
        | rfl
        | exact Option.noConfusion h
  have hinv := xdLoop_inv allocOk (input.length + 1) (xd_readline_reset s)
    input hresetInv
  have hnf := xdLoop_no_fuelOut allocOk (input.length + 1)
    (xd_readline_reset s) input (by omega) (fun h => Option.noConfusion h)
  have hw := xd_tty_write_ghost [10]
    (xdLoop allocOk (input.length + 1) (xd_readline_reset s) input)
  unfold xd_readline
  dsimp only
  generalize hgL : xdLoop allocOk (input.length + 1) (xd_readline_reset s)
      input = sL at hinv hnf hw ⊢
  by_cases hc : sL.cursorCol ≠ 1
  · rw [if_pos hc]
    obtain ⟨-, hwr, hwe, hwb⟩ := hw
    rw [hwr, hwe, hwb]
    have hcore := readline_pair_core sL hinv hnf
    exact ⟨hcore.1, hcore.2, hnf, hctrld⟩
  · rw [if_neg hc]
    have hcore := readline_pair_core sL hinv hnf
    exact ⟨hcore.1, hcore.2, hnf, hctrld⟩

/-- Witness for C2: typing `a`, `b`, Enter returns the buffer
`"ab\n"`, with the submit hypothesis discharged concretely. -/
theorem C2_witness :
    (xd_readline true xdBase [97, 98, 10]).2.exitReason
        = some ExitReason.submit ∧
    (xd_readline true xdBase [97, 98, 10]).1
        = some (xd_readline true xdBase [97, 98, 10]).2.inputBuffer ∧
    (xd_readline true xdBase [97, 98, 10]).2.inputBuffer.getLast? = some 10 :=
  ⟨by decide, (C2_readline_return_contract true xdBase [97, 98, 10]).2.1
    (by decide)⟩

/-! ## C7: array-level bounds lemmas -/

theorem awr_eq {arr : List Nat} {i : Nat} (v : Nat) (h : i < arr.length) :
    awr arr i v = some (arr.set i v) := by
  unfold awr
  rw [if_pos h]

theorem roundUpLineMax_ge (n : Nat) : n ≤ roundUpLineMax n := by
  unfold roundUpLineMax LINE_MAX
  split_ifs <;> omega

theorem get?_some_of_lt {arr : List Nat} {i : Nat} (h : i < arr.length) :
    ∃ v, arr.get? i = some v := by
  cases hg : arr.get? i with
  | none => exact absurd (List.get?_eq_none.mp hg) (by omega)
  | some v => exact ⟨v, rfl⟩

theorem xd_shift_right_loop_some (cur : Nat) :
    ∀ (i : Nat) (arr : List Nat), i < arr.length →
    ∃ arr', xd_shift_right_loop cur arr i = some arr' ∧
      arr'.length = arr.length := by
  intro i
  induction i with
  | zero =>
    intro arr _
    exact ⟨arr, rfl, rfl⟩
  | succ i ih =>
    intro arr hlen
    rw [xd_shift_right_loop]
    by_cases hc : cur < i + 1
    · rw [if_pos hc]
      obtain ⟨v, hg⟩ := get?_some_of_lt (show i < arr.length by omega)
      rw [hg]
      dsimp only
      rw [awr_eq v hlen]
      dsimp only
      obtain ⟨arr', h1, h2⟩ := ih (arr.set (i + 1) v) (by simp; omega)
      exact ⟨arr', h1, by simpa using h2⟩
    · rw [if_neg hc]
      exact ⟨arr, rfl, rfl⟩

theorem xd_shift_left_go_some (n stop : Nat) :
    ∀ (k i : Nat) (arr : List Nat), stop ≤ arr.length →
    ∃ arr', xd_shift_left_go n stop k arr i = some arr' ∧
      arr'.length = arr.length := by
  intro k
  induction k with
  | zero =>
    intro i arr _
    exact ⟨arr, rfl, rfl⟩
  | succ k ih =>
    intro i arr hlen
    rw [xd_shift_left_go]
    by_cases hi : i < stop
    · rw [if_pos hi]
      obtain ⟨v, hg⟩ := get?_some_of_lt (show i < arr.length by omega)
      rw [hg]
      dsimp only
      rw [awr_eq v (show i - n < arr.length by omega)]
      dsimp only
      obtain ⟨arr', h1, h2⟩ := ih (i + 1) (arr.set (i - n) v)
        (by simpa using hlen)
      exact ⟨arr', h1, by simpa using h2⟩
    · rw [if_neg hi]
      exact ⟨arr, rfl, rfl⟩

theorem xd_shift_left_loop_some (n stop i : Nat) (arr : List Nat)
    (hlen : stop ≤ arr.length) :
    ∃ arr', xd_shift_left_loop n stop arr i = some arr' ∧
      arr'.length = arr.length :=
  xd_shift_left_go_some n stop (stop - i) i arr hlen

theorem xd_shift_from_go_some (n stop : Nat) :
    ∀ (k i : Nat) (arr : List Nat), stop + n ≤ arr.length →
    ∃ arr', xd_shift_from_go n stop k arr i = some arr' ∧
      arr'.length = arr.length := by
  intro k
  induction k with
  | zero =>
    intro i arr _
    exact ⟨arr, rfl, rfl⟩
  | succ k ih =>
    intro i arr hlen
    rw [xd_shift_from_go]
    by_cases hi : i < stop
    · rw [if_pos hi]
      obtain ⟨v, hg⟩ := get?_some_of_lt (show i + n < arr.length by omega)
      rw [hg]
      dsimp only
      rw [awr_eq v (show i < arr.length by omega)]
      dsimp only
      obtain ⟨arr', h1, h2⟩ := ih (i + 1) (arr.set i v)
        (by simpa using hlen)
      exact ⟨arr', h1, by simpa using h2⟩
    · rw [if_neg hi]
      exact ⟨arr, rfl, rfl⟩

theorem xd_shift_from_loop_some (n stop i : Nat) (arr : List Nat)
    (hlen : stop + n ≤ arr.length) :
    ∃ arr', xd_shift_from_loop n stop arr i = some arr' ∧
      arr'.length = arr.length :=
  xd_shift_from_go_some n stop (stop - i) i arr hlen

theorem xd_read_range_some {arr : List Nat} :
    ∀ (m i : Nat), i + m ≤ arr.length →
    ∃ l, xd_read_range arr i m = some l ∧ l.length = m := by
  intro m
  induction m with
  | zero =>
    intro i _
    exact ⟨[], rfl, rfl⟩
  | succ m ih =>
    intro i hm
    obtain ⟨v, hg⟩ := get?_some_of_lt (show i < arr.length by omega)
    obtain ⟨l, h1, h2⟩ := ih (i + 1) (by omega)
    rw [xd_read_range, hg, h1]
    exact ⟨v :: l, rfl, by simp [h2]⟩

theorem xd_write_range_some :
    ∀ (vs : List Nat) (arr : List Nat) (i : Nat), i + vs.length ≤ arr.length →
    ∃ arr', xd_write_range arr i vs = some arr' ∧
      arr'.length = arr.length := by
  intro vs
  induction vs with
  | nil =>
    intro arr i _
    exact ⟨arr, rfl, rfl⟩
  | cons v vs ih =>
    intro arr i hlen
    rw [xd_write_range, awr_eq v (by simp at hlen; omega)]
    obtain ⟨arr', h1, h2⟩ := ih (arr.set i v) (i + 1)
      (by simp at hlen ⊢; omega)
    exact ⟨arr', h1, by simpa using h2⟩

theorem xd_word_scan_go_some (p : Nat → Bool) (arr : List Nat) (len : Nat)
    (hlen : len ≤ arr.length) :
    ∀ (k idx : Nat), idx ≤ len →
    ∃ j, xd_word_scan_go p arr len k idx = some j ∧ j ≤ len := by
  intro k
  induction k with
  | zero =>
    intro idx hidx
    exact ⟨idx, rfl, hidx⟩
  | succ k ih =>
    intro idx hidx
    rw [xd_word_scan_go]
    by_cases hi : idx < len
    · rw [if_pos hi]
      obtain ⟨v, hg⟩ := get?_some_of_lt (show idx < arr.length by omega)
      rw [hg]
      dsimp only
      by_cases hp : p v = true
      · rw [if_pos hp]
        exact ih (idx + 1) (by omega)
      · rw [if_neg hp]
        exact ⟨idx, rfl, by omega⟩
    · rw [if_neg hi]
      exact ⟨idx, rfl, hidx⟩

theorem xd_word_scan_arr_some (p : Nat → Bool) (arr : List Nat)
    (len : Nat) (hlen : len ≤ arr.length) (idx : Nat) (hidx : idx ≤ len) :
    ∃ j, xd_word_scan_arr p arr len idx = some j ∧ j ≤ len :=
  xd_word_scan_go_some p arr len hlen (len - idx) idx hidx

theorem xd_word_scan_back_arr_some (p : Nat → Bool) (arr : List Nat) :
    ∀ (idx : Nat), idx ≤ arr.length →
    ∃ j, xd_word_scan_back_arr p arr idx = some j ∧ j ≤ idx := by
  intro idx
  induction idx with
  | zero =>
    intro _
    exact ⟨0, rfl, le_rfl⟩
  | succ i ih =>
    intro hlen
    rw [xd_word_scan_back_arr]
    obtain ⟨v, hg⟩ := get?_some_of_lt (show i < arr.length by omega)
    rw [hg]
    dsimp only
    by_cases hp : p v = true
    · rw [if_pos hp]
      obtain ⟨j, h1, h2⟩ := ih (by omega)
      exact ⟨j, h1, by omega⟩
    · rw [if_neg hp]
      exact ⟨i + 1, rfl, le_rfl⟩

theorem xd_word_end_arr_some {b : ABuf} (hc : b.cur ≤ b.len)
    (hl : b.len ≤ b.arr.length) :
    ∃ j, xd_word_end_arr b = some j ∧ j ≤ b.len := by
  obtain ⟨i1, h1, h2⟩ := xd_word_scan_arr_some (fun c => !xd_isalnum c)
    b.arr b.len hl b.cur hc
  obtain ⟨j, h3, h4⟩ := xd_word_scan_arr_some xd_isalnum
    b.arr b.len hl i1 h2
  refine ⟨j, ?_, h4⟩
  unfold xd_word_end_arr
  rw [h1]
  exact h3

theorem xd_word_start_arr_some {b : ABuf} (hc : b.cur ≤ b.arr.length) :
    ∃ j, xd_word_start_arr b = some j ∧ j ≤ b.cur := by
  obtain ⟨i1, h1, h2⟩ := xd_word_scan_back_arr_some (fun c => !xd_isalnum c)
    b.arr b.cur hc
  obtain ⟨j, h3, h4⟩ := xd_word_scan_back_arr_some xd_isalnum
    b.arr i1 (by omega)
  refine ⟨j, ?_, by omega⟩
  unfold xd_word_start_arr
  rw [h1]
  exact h3

theorem xd_input_buffer_insert_arr_inv (chr : Nat) (b : ABuf)
    (hInv : ABufInv b) (hcap : b.len + 2 ≤ b.cap) :
    ∃ b', xd_input_buffer_insert_arr chr b = some b' ∧ ABufInv b' ∧
      b'.arr.get? b'.len = some 0 := by
  obtain ⟨ha, hcu, hl1, hh, hn, he⟩ := hInv
  obtain ⟨arr1, hs, hlen1⟩ := xd_shift_right_loop_some b.cur b.len b.arr
    (by omega)
  unfold xd_input_buffer_insert_arr
  rw [hs]
  dsimp only
  rw [awr_eq chr (show b.cur < arr1.length by omega)]
  dsimp only
  have hb : b.len + 1 < (arr1.set b.cur chr).length := by
    rw [List.length_set]
    omega
  rw [awr_eq 0 hb]
  dsimp only
  refine ⟨_, rfl, ⟨?_, by dsimp only; omega, by dsimp only; omega,
    by simpa using hh, by simpa using hn, by simpa using he⟩, ?_⟩
  · dsimp only
    simp only [List.length_set]
    omega
  · dsimp only
    rw [List.get?_eq_getElem?]
    exact List.getElem?_set_eq_of_lt 0 hb

theorem xd_input_buffer_remove_before_cursor_arr_inv (n : Nat) (b : ABuf)
    (hInv : ABufInv b) :
    ∃ b', xd_input_buffer_remove_before_cursor_arr n b = some b' ∧
      ABufInv b' := by
  obtain ⟨ha, hcu, hl1, hh, hn, he⟩ := hInv
  unfold xd_input_buffer_remove_before_cursor_arr
  by_cases hg : b.cur < n
  · rw [if_pos hg]
    exact ⟨b, rfl, ha, hcu, hl1, hh, hn, he⟩
  · rw [if_neg hg]
    obtain ⟨arr', h1, h2⟩ := xd_shift_left_loop_some n b.len b.cur b.arr
      (by omega)
    rw [h1]
    dsimp only
    exact ⟨_, rfl, by dsimp only; omega, by dsimp only; omega,
      by dsimp only; omega, by simpa using hh, by simpa using hn,
      by simpa using he⟩

theorem xd_input_buffer_remove_from_cursor_arr_inv (n : Nat) (b : ABuf)
    (hInv : ABufInv b) :
    ∃ b', xd_input_buffer_remove_from_cursor_arr n b = some b' ∧
      ABufInv b' := by
  obtain ⟨ha, hcu, hl1, hh, hn, he⟩ := hInv
  unfold xd_input_buffer_remove_from_cursor_arr
  by_cases hg : b.len - b.cur < n
  · rw [if_pos hg]
    exact ⟨b, rfl, ha, hcu, hl1, hh, hn, he⟩
  · rw [if_neg hg]
    obtain ⟨arr', h1, h2⟩ := xd_shift_from_loop_some n (b.len - n) b.cur
      b.arr (by omega)
    rw [h1]
    dsimp only
    exact ⟨_, rfl, by dsimp only; omega, by dsimp only; omega,
      by dsimp only; omega, by simpa using hh, by simpa using hn,
      by simpa using he⟩

theorem xd_input_handle_enter_arr_inv (b : ABuf) (hInv : ABufInv b)
    (hcap : b.len + 2 ≤ b.cap) :
    ∃ b', xd_input_handle_enter_arr b = some b' ∧ ABufInv b' ∧
      b'.arr.get? b'.len = some 0 := by
  obtain ⟨ha, hcu, hl1, hh, hn, he⟩ := hInv
  unfold xd_input_handle_enter_arr
  rw [awr_eq 10 (show b.len < b.arr.length by omega)]
  dsimp only
  have hb : b.len + 1 < (b.arr.set b.len 10).length := by
    rw [List.length_set]
    omega
  rw [awr_eq 0 hb]
  dsimp only
  refine ⟨_, rfl, ⟨?_, by dsimp only; omega, by dsimp only; omega,
    by simpa using hh, by simpa using hn, by simpa using he⟩, ?_⟩
  · dsimp only
    simp only [List.length_set]
    omega
  · dsimp only
    rw [List.get?_eq_getElem?]
    exact List.getElem?_set_eq_of_lt 0 hb

theorem xd_input_buffer_save_to_history_arr_inv (allocOk : Bool) (b : ABuf)
    (hInv : ABufInv b) :
    ∃ b', xd_input_buffer_save_to_history_arr allocOk b = some b' ∧
      ABufInv b' ∧ b'.arr = b.arr ∧ b'.cap = b.cap ∧ b'.len = b.len ∧
      b'.cur = b.cur ∧ b'.navIdx = b.navIdx ∧ b'.endIdx = b.endIdx ∧
      b'.histLen = b.histLen ∧ b'.finished = b.finished := by
  obtain ⟨ha, hcu, hl1, hh, hn, he⟩ := hInv
  unfold xd_input_buffer_save_to_history_arr
  dsimp only
  by_cases hg : b.len > (hGet b.history b.navIdx).capacity - 1 ∧ ¬allocOk = true
  · rw [if_pos hg]
    exact ⟨b, rfl, ⟨ha, hcu, hl1, hh, hn, he⟩, rfl, rfl, rfl, rfl, rfl, rfl,
      rfl, rfl⟩
  · rw [if_neg hg]
    obtain ⟨bytes, h1, h2⟩ := @xd_read_range_some b.arr b.len 0 (by omega)
    rw [h1]
    dsimp only
    exact ⟨_, rfl, ⟨ha, hcu, hl1, by simpa using hh, hn, he⟩, rfl, rfl, rfl,
      rfl, rfl, rfl, rfl, rfl⟩

theorem xd_input_buffer_load_from_history_arr_inv (allocOk : Bool) (b : ABuf)
    (hInv : ABufInv b) :
    ∃ b', xd_input_buffer_load_from_history_arr allocOk b = some b' ∧
      ABufInv b' ∧ b'.history = b.history ∧ b'.navIdx = b.navIdx ∧
      b'.endIdx = b.endIdx ∧ b'.histLen = b.histLen ∧
      b'.finished = b.finished ∧
      (allocOk = true → b'.arr.get? b'.len = some 0) := by
  obtain ⟨ha, hcu, hl1, hh, hn, he⟩ := hInv
  unfold xd_input_buffer_load_from_history_arr
  dsimp only
  by_cases hg : (hGet b.history b.navIdx).str.length > b.cap - 1 ∧
      ¬allocOk = true
  · rw [if_pos hg]
    refine ⟨b, rfl, ⟨ha, hcu, hl1, hh, hn, he⟩, rfl, rfl, rfl, rfl, rfl, ?_⟩
    intro hok
    exact absurd hok (by simpa using hg.2)
  · rw [if_neg hg]
    have hru := roundUpLineMax_ge ((hGet b.history b.navIdx).str.length + 1)
    by_cases hgrow : (hGet b.history b.navIdx).str.length > b.cap - 1
    · rw [if_pos hgrow]
      dsimp only
      obtain ⟨arr1, h1, h2⟩ := xd_write_range_some
        (hGet b.history b.navIdx).str
        (b.arr ++ List.replicate
          (roundUpLineMax ((hGet b.history b.navIdx).str.length + 1) - b.cap)
          0) 0
        (by rw [List.length_append, List.length_replicate, ha]; omega)
      rw [h1]
      dsimp only
      have harr1 : (hGet b.history b.navIdx).str.length < arr1.length := by
        rw [h2, List.length_append, List.length_replicate, ha]
        omega
      rw [awr_eq 0 harr1]
      dsimp only
      refine ⟨_, rfl, ⟨?_, le_rfl, ?_, by simpa using hh, by simpa using hn,
        by simpa using he⟩, rfl, rfl, rfl, rfl, rfl, ?_⟩
      · dsimp only
        rw [List.length_set, h2, List.length_append, List.length_replicate,
          ha]
        omega
      · dsimp only
        omega
      · intro _
        dsimp only
        rw [List.get?_eq_getElem?]
        exact List.getElem?_set_eq_of_lt 0 harr1
    · rw [if_neg hgrow]
      obtain ⟨arr1, h1, h2⟩ := xd_write_range_some
        (hGet b.history b.navIdx).str b.arr 0 (by omega)
      rw [h1]
      dsimp only
      have harr1 : (hGet b.history b.navIdx).str.length < arr1.length := by
        omega
      rw [awr_eq 0 harr1]
      dsimp only
      refine ⟨_, rfl, ⟨?_, le_rfl, ?_, by simpa using hh, by simpa using hn,
        by simpa using he⟩, rfl, rfl, rfl, rfl, rfl, ?_⟩
      · dsimp only
        rw [List.length_set, h2, ha]
      · dsimp only
        omega
      · intro _
        dsimp only
        rw [List.get?_eq_getElem?]
        exact List.getElem?_set_eq_of_lt 0 harr1

theorem xd_input_handle_up_arrow_arr_inv (allocOk : Bool) (b : ABuf)
    (hInv : ABufInv b) :
    ∃ b', xd_input_handle_up_arrow_arr allocOk b = some b' ∧ ABufInv b' := by
  unfold xd_input_handle_up_arrow_arr
  by_cases hg : b.histLen = 0 ∨ b.navIdx = b.startIdx
  · rw [if_pos hg]
    exact ⟨b, rfl, hInv⟩
  · rw [if_neg hg]
    obtain ⟨b1, h1, hInv1, -, -, -, -, hnav1, hend1, -, -⟩ :=
      xd_input_buffer_save_to_history_arr_inv allocOk b hInv
    rw [h1]
    dsimp only
    obtain ⟨ha1, hcu1, hl11, hh1, hn1, he1⟩ := hInv1
    by_cases hnv : b1.navIdx = XD_HISTORY_MAX
    · rw [if_pos hnv]
      obtain ⟨b', h2, hInv', -⟩ :=
        xd_input_buffer_load_from_history_arr_inv allocOk
          {b1 with navIdx := b1.endIdx}
          ⟨ha1, hcu1, hl11, hh1, by dsimp only; omega, he1⟩
      exact ⟨b', h2, hInv'⟩
    · rw [if_neg hnv]
      obtain ⟨b', h2, hInv', -⟩ :=
        xd_input_buffer_load_from_history_arr_inv allocOk
          {b1 with navIdx := (b1.navIdx + XD_HISTORY_MAX - 1) % XD_HISTORY_MAX}
          ⟨ha1, hcu1, hl11, hh1, by dsimp only; unfold XD_HISTORY_MAX; omega,
            he1⟩
      exact ⟨b', h2, hInv'⟩

theorem xd_input_handle_down_arrow_arr_inv (allocOk : Bool) (b : ABuf)
    (hInv : ABufInv b) :
    ∃ b', xd_input_handle_down_arrow_arr allocOk b = some b' ∧ ABufInv b' := by
  unfold xd_input_handle_down_arrow_arr
  by_cases hg : b.histLen = 0 ∨ b.navIdx = XD_HISTORY_MAX
  · rw [if_pos hg]
    exact ⟨b, rfl, hInv⟩
  · rw [if_neg hg]
    obtain ⟨b1, h1, hInv1, -, -, -, -, hnav1, hend1, -, -⟩ :=
      xd_input_buffer_save_to_history_arr_inv allocOk b hInv
    rw [h1]
    dsimp only
    obtain ⟨ha1, hcu1, hl11, hh1, hn1, he1⟩ := hInv1
    by_cases hnv : b1.navIdx = b1.endIdx
    · rw [if_pos hnv]
      obtain ⟨b', h2, hInv', -⟩ :=
        xd_input_buffer_load_from_history_arr_inv allocOk
          {b1 with navIdx := XD_HISTORY_MAX}
          ⟨ha1, hcu1, hl11, hh1, by dsimp only; unfold XD_HISTORY_MAX; omega,
            he1⟩
      exact ⟨b', h2, hInv'⟩
    · rw [if_neg hnv]
      obtain ⟨b', h2, hInv', -⟩ :=
        xd_input_buffer_load_from_history_arr_inv allocOk
          {b1 with navIdx := (b1.navIdx + 1) % XD_HISTORY_MAX}
          ⟨ha1, hcu1, hl11, hh1, by dsimp only; unfold XD_HISTORY_MAX; omega,
            he1⟩
      exact ⟨b', h2, hInv'⟩

theorem xd_input_handle_delete_arr_inv (b : ABuf) (hInv : ABufInv b) :
    ∃ b', xd_input_handle_delete_arr b = some b' ∧ ABufInv b' := by
  unfold xd_input_handle_delete_arr
  by_cases hg : b.cur = b.len
  · rw [if_pos hg]
    exact ⟨b, rfl, hInv⟩
  · rw [if_neg hg]
    exact xd_input_buffer_remove_from_cursor_arr_inv 1 b hInv

theorem xd_input_handle_ctrl_d_arr_inv (b : ABuf) (hInv : ABufInv b) :
    ∃ b', xd_input_handle_ctrl_d_arr b = some b' ∧ ABufInv b' := by
  unfold xd_input_handle_ctrl_d_arr
  obtain ⟨ha, hcu, hl1, hh, hn, he⟩ := hInv
  by_cases hg : b.len = 0
  · rw [if_pos hg]
    exact ⟨_, rfl, ha, hcu, hl1, hh, hn, he⟩
  · rw [if_neg hg]
    exact xd_input_handle_delete_arr_inv b ⟨ha, hcu, hl1, hh, hn, he⟩

theorem xd_input_handle_ctrl_h_arr_inv (b : ABuf) (hInv : ABufInv b) :
    ∃ b', xd_input_handle_ctrl_h_arr b = some b' ∧ ABufInv b' := by
  unfold xd_input_handle_ctrl_h_arr
  by_cases hg : b.cur = 0
  · rw [if_pos hg]
    exact ⟨b, rfl, hInv⟩
  · rw [if_neg hg]
    exact xd_input_buffer_remove_before_cursor_arr_inv 1 b hInv

theorem xd_input_handle_ctrl_k_arr_inv (b : ABuf) (hInv : ABufInv b) :
    ∃ b', xd_input_handle_ctrl_k_arr b = some b' ∧ ABufInv b' := by
  unfold xd_input_handle_ctrl_k_arr
  by_cases hg : b.cur = b.len
  · rw [if_pos hg]
    exact ⟨b, rfl, hInv⟩
  · rw [if_neg hg]
    exact xd_input_buffer_remove_from_cursor_arr_inv (b.len - b.cur) b hInv

theorem xd_input_handle_ctrl_u_arr_inv (b : ABuf) (hInv : ABufInv b) :
    ∃ b', xd_input_handle_ctrl_u_arr b = some b' ∧ ABufInv b' := by
  unfold xd_input_handle_ctrl_u_arr
  by_cases hg : b.cur = 0
  · rw [if_pos hg]
    exact ⟨b, rfl, hInv⟩
  · rw [if_neg hg]
    exact xd_input_buffer_remove_before_cursor_arr_inv b.cur b hInv

theorem xd_input_handle_ctrl_a_arr_inv (b : ABuf) (hInv : ABufInv b) :
    ∃ b', xd_input_handle_ctrl_a_arr b = some b' ∧ ABufInv b' := by
  obtain ⟨ha, hcu, hl1, hh, hn, he⟩ := hInv
  unfold xd_input_handle_ctrl_a_arr
  split_ifs
  · exact ⟨b, rfl, ha, hcu, hl1, hh, hn, he⟩
  · exact ⟨_, rfl, ha, by dsimp only; omega, hl1, hh, hn, he⟩

theorem xd_input_handle_ctrl_b_arr_inv (b : ABuf) (hInv : ABufInv b) :
    ∃ b', xd_input_handle_ctrl_b_arr b = some b' ∧ ABufInv b' := by
  obtain ⟨ha, hcu, hl1, hh, hn, he⟩ := hInv
  unfold xd_input_handle_ctrl_b_arr
  split_ifs
  · exact ⟨b, rfl, ha, hcu, hl1, hh, hn, he⟩
  · exact ⟨_, rfl, ha, by dsimp only; omega, hl1, hh, hn, he⟩

theorem xd_input_handle_ctrl_e_arr_inv (b : ABuf) (hInv : ABufInv b) :
    ∃ b', xd_input_handle_ctrl_e_arr b = some b' ∧ ABufInv b' := by
  obtain ⟨ha, hcu, hl1, hh, hn, he⟩ := hInv
  unfold xd_input_handle_ctrl_e_arr
  split_ifs
  · exact ⟨b, rfl, ha, hcu, hl1, hh, hn, he⟩
  · exact ⟨_, rfl, ha, le_rfl, hl1, hh, hn, he⟩

theorem xd_input_handle_ctrl_f_arr_inv (b : ABuf) (hInv : ABufInv b) :
    ∃ b', xd_input_handle_ctrl_f_arr b = some b' ∧ ABufInv b' := by
  obtain ⟨ha, hcu, hl1, hh, hn, he⟩ := hInv
  unfold xd_input_handle_ctrl_f_arr
  split_ifs with hg
  · exact ⟨b, rfl, ha, hcu, hl1, hh, hn, he⟩
  · exact ⟨_, rfl, ha, by dsimp only; omega, hl1, hh, hn, he⟩

theorem xd_input_handle_alt_f_arr_inv (b : ABuf) (hInv : ABufInv b) :
    ∃ b', xd_input_handle_alt_f_arr b = some b' ∧ ABufInv b' := by
  obtain ⟨ha, hcu, hl1, hh, hn, he⟩ := hInv
  unfold xd_input_handle_alt_f_arr
  by_cases hg : b.cur = b.len
  · rw [if_pos hg]
    exact ⟨b, rfl, ha, hcu, hl1, hh, hn, he⟩
  · rw [if_neg hg]
    obtain ⟨j, h1, h2⟩ := xd_word_end_arr_some hcu (by omega)
    rw [h1]
    exact ⟨_, rfl, ha, by dsimp only; omega, hl1, hh, hn, he⟩

theorem xd_input_handle_alt_b_arr_inv (b : ABuf) (hInv : ABufInv b) :
    ∃ b', xd_input_handle_alt_b_arr b = some b' ∧ ABufInv b' := by
  obtain ⟨ha, hcu, hl1, hh, hn, he⟩ := hInv
  unfold xd_input_handle_alt_b_arr
  by_cases hg : b.cur = 0
  · rw [if_pos hg]
    exact ⟨b, rfl, ha, hcu, hl1, hh, hn, he⟩
  · rw [if_neg hg]
    obtain ⟨j, h1, h2⟩ := xd_word_start_arr_some (show b.cur ≤ b.arr.length
      by omega)
    rw [h1]
    exact ⟨_, rfl, ha, by dsimp only; omega, hl1, hh, hn, he⟩

theorem xd_input_handle_alt_d_arr_inv (b : ABuf) (hInv : ABufInv b) :
    ∃ b', xd_input_handle_alt_d_arr b = some b' ∧ ABufInv b' := by
  obtain ⟨ha, hcu, hl1, hh, hn, he⟩ := hInv
  unfold xd_input_handle_alt_d_arr
  by_cases hg : b.cur = b.len
  · rw [if_pos hg]
    exact ⟨b, rfl, ha, hcu, hl1, hh, hn, he⟩
  · rw [if_neg hg]
    obtain ⟨j, h1, h2⟩ := xd_word_end_arr_some hcu (by omega)
    rw [h1]
    exact xd_input_buffer_remove_from_cursor_arr_inv (j - b.cur) b
      ⟨ha, hcu, hl1, hh, hn, he⟩

theorem xd_input_handle_alt_backspace_arr_inv (b : ABuf) (hInv : ABufInv b) :
    ∃ b', xd_input_handle_alt_backspace_arr b = some b' ∧ ABufInv b' := by
  obtain ⟨ha, hcu, hl1, hh, hn, he⟩ := hInv
  unfold xd_input_handle_alt_backspace_arr
  by_cases hg : b.cur = 0
  · rw [if_pos hg]
    exact ⟨b, rfl, ha, hcu, hl1, hh, hn, he⟩
  · rw [if_neg hg]
    obtain ⟨j, h1, h2⟩ := xd_word_start_arr_some (show b.cur ≤ b.arr.length
      by omega)
    rw [h1]
    exact xd_input_buffer_remove_before_cursor_arr_inv (b.cur - j) b
      ⟨ha, hcu, hl1, hh, hn, he⟩

theorem applyEditAction_inv (allocOk : Bool) (a : EditAction) (b : ABuf)
    (hInv : ABufInv b) (hcap : b.len + 2 ≤ b.cap) :
    ∃ b', applyEditAction allocOk a b = some b' ∧ ABufInv b' := by
  cases a with
  | printable c =>
    obtain ⟨b', h1, h2, -⟩ := xd_input_buffer_insert_arr_inv c b hInv hcap
    exact ⟨b', h1, h2⟩
  | ctrlA => exact xd_input_handle_ctrl_a_arr_inv b hInv
  | ctrlB => exact xd_input_handle_ctrl_b_arr_inv b hInv
  | ctrlD => exact xd_input_handle_ctrl_d_arr_inv b hInv
  | ctrlE => exact xd_input_handle_ctrl_e_arr_inv b hInv
  | ctrlF => exact xd_input_handle_ctrl_f_arr_inv b hInv
  | ctrlG => exact ⟨b, rfl, hInv⟩
  | ctrlH => exact xd_input_handle_ctrl_h_arr_inv b hInv
  | enter =>
    obtain ⟨b', h1, h2, -⟩ := xd_input_handle_enter_arr_inv b hInv hcap
    exact ⟨b', h1, h2⟩
  | ctrlK => exact xd_input_handle_ctrl_k_arr_inv b hInv
  | ctrlL => exact ⟨b, rfl, hInv⟩
  | ctrlU => exact xd_input_handle_ctrl_u_arr_inv b hInv
  | backspace => exact xd_input_handle_ctrl_h_arr_inv b hInv
  | deleteKey => exact xd_input_handle_delete_arr_inv b hInv
  | homeKey => exact xd_input_handle_ctrl_a_arr_inv b hInv
  | endKey => exact xd_input_handle_ctrl_e_arr_inv b hInv
  | upArrow => exact xd_input_handle_up_arrow_arr_inv allocOk b hInv
  | downArrow => exact xd_input_handle_down_arrow_arr_inv allocOk b hInv
  | leftArrow => exact xd_input_handle_ctrl_b_arr_inv b hInv
  | rightArrow => exact xd_input_handle_ctrl_f_arr_inv b hInv
  | altF => exact xd_input_handle_alt_f_arr_inv b hInv
  | altB => exact xd_input_handle_alt_b_arr_inv b hInv
  | altD => exact xd_input_handle_alt_d_arr_inv b hInv
  | altBackspace => exact xd_input_handle_alt_backspace_arr_inv b hInv
  | ctrlRightArrow => exact xd_input_handle_alt_f_arr_inv b hInv
  | ctrlLeftArrow => exact xd_input_handle_alt_b_arr_inv b hInv
  | ctrlDelete => exact xd_input_handle_alt_d_arr_inv b hInv

theorem xd_edit_step_inv (allocOk : Bool) (a : EditAction) (b : ABuf)
    (hInv : ABufInv b) :
    ∃ b', xd_edit_step allocOk a b = some b' ∧ ABufInv b' := by
  obtain ⟨ha, hcu, hl1, hh, hn, he⟩ := hInv
  unfold xd_edit_step
  by_cases hf : b.finished = true
  · rw [if_pos hf]
    exact ⟨b, rfl, ha, hcu, hl1, hh, hn, he⟩
  · rw [if_neg hf]
    by_cases hac : b.len = b.cap - 1 ∧ ¬allocOk = true
    · rw [if_pos hac]
      exact ⟨b, rfl, ha, hcu, hl1, hh, hn, he⟩
    · rw [if_neg hac]
      dsimp only
      by_cases hgrow : b.len = b.cap - 1
      · rw [if_pos hgrow]
        refine applyEditAction_inv allocOk a _
          ⟨?_, hcu, ?_, hh, hn, he⟩ ?_
        · dsimp only
          rw [List.length_append, List.length_replicate, ha]
          omega
        · dsimp only
          omega
        · dsimp only
          omega
      · rw [if_neg hgrow]
        exact applyEditAction_inv allocOk a b ⟨ha, hcu, hl1, hh, hn, he⟩
          (by omega)

theorem xd_edit_run_cons (allocOk : Bool) (a : EditAction)
    (acts : List EditAction) (b b1 : ABuf)
    (h : xd_edit_step allocOk a b = some b1) :
    xd_edit_run allocOk (a :: acts) b = xd_edit_run allocOk acts b1 := by
  unfold xd_edit_run
  rw [List.foldlM_cons]
  rw [h]
  rfl

theorem xd_edit_run_inv (allocOk : Bool) :
    ∀ (acts : List EditAction) (b : ABuf), ABufInv b →
    ∃ b', xd_edit_run allocOk acts b = some b' ∧ ABufInv b' := by
  intro acts
  induction acts with
  | nil =>
    intro b hb
    exact ⟨b, rfl, hb⟩
  | cons a acts ih =>
    intro b hb
    obtain ⟨b1, h1, hb1⟩ := xd_edit_step_inv allocOk a b hb
    obtain ⟨b', h2, hb'⟩ := ih b1 hb1
    rw [xd_edit_run_cons allocOk a acts b b1 h1]
    exact ⟨b', h2, hb'⟩

theorem xd_insert_arr_sentinel (c : Nat) (t t' : ABuf)
    (h : xd_input_buffer_insert_arr c t = some t') :
    t'.arr.get? t'.len = some 0 := by
  unfold xd_input_buffer_insert_arr at h
  cases hs : xd_shift_right_loop t.cur t.arr t.len with
  | none =>
    rw [hs] at h
    exact Option.noConfusion h
  | some arr1 =>
    rw [hs] at h
    dsimp only at h
    cases hw1 : awr arr1 t.cur c with
    | none =>
      rw [hw1] at h
      exact Option.noConfusion h
    | some arr2 =>
      rw [hw1] at h
      dsimp only at h
      cases hw2 : awr arr2 (t.len + 1) 0 with
      | none =>
        rw [hw2] at h
        exact Option.noConfusion h
      | some arr3 =>
        rw [hw2] at h
        dsimp only at h
        obtain rfl := (Option.some.inj h).symm
        unfold awr at hw2
        by_cases hb : t.len + 1 < arr2.length
        · rw [if_pos hb] at hw2
          obtain rfl := (Option.some.inj hw2).symm
          dsimp only
          rw [List.get?_eq_getElem?]
          exact List.getElem?_set_eq_of_lt 0 hb
        · rw [if_neg hb] at hw2
          exact Option.noConfusion hw2

theorem xd_enter_arr_sentinel (t t' : ABuf)
    (h : xd_input_handle_enter_arr t = some t') :
    t'.arr.get? t'.len = some 0 := by
  unfold xd_input_handle_enter_arr at h
  cases hw1 : awr t.arr t.len 10 with
  | none =>
    rw [hw1] at h
    exact Option.noConfusion h
  | some arr1 =>
    rw [hw1] at h
    dsimp only at h
    cases hw2 : awr arr1 (t.len + 1) 0 with
    | none =>
      rw [hw2] at h
      exact Option.noConfusion h
    | some arr2 =>
      rw [hw2] at h
      dsimp only at h
      obtain rfl := (Option.some.inj h).symm
      unfold awr at hw2
      by_cases hb : t.len + 1 < arr1.length
      · rw [if_pos hb] at hw2
        obtain rfl := (Option.some.inj hw2).symm
        dsimp only
        rw [List.get?_eq_getElem?]
        exact List.getElem?_set_eq_of_lt 0 hb
      · rw [if_neg hb] at hw2
        exact Option.noConfusion hw2

/-- C7 (amended): from every well-formed array-level state, every
sequence of main-loop editing actions performs all its `B` reads and
writes inside `[0, C)` (the bounds-checked run never fails) and
re-establishes `0 ≤ P ≤ L < C`; the NUL sentinel `B[L] = 0` is
(re)established by insert, by Enter, and by a history load, but it is
not an invariant of the remove operations. -/
theorem C7_buffer_invariants_amended (allocOk : Bool)
    (acts : List EditAction) (b : ABuf) (h : ABufInv b) :
    (∃ b', xd_edit_run allocOk acts b = some b' ∧
      b'.cur ≤ b'.len ∧ b'.len < b'.cap ∧ b'.arr.length = b'.cap) ∧
    (∀ (c : Nat) (t t' : ABuf), xd_input_buffer_insert_arr c t = some t' →
      t'.arr.get? t'.len = some 0) ∧
    (∀ t t' : ABuf, xd_input_handle_enter_arr t = some t' →
      t'.arr.get? t'.len = some 0) ∧
    (∀ t t' : ABuf, ABufInv t →
      xd_input_buffer_load_from_history_arr true t = some t' →
      t'.arr.get? t'.len = some 0) := by
  refine ⟨?_, xd_insert_arr_sentinel, xd_enter_arr_sentinel, ?_⟩
  · obtain ⟨b', h1, ha', hcu', hl1', -, -, -⟩ :=
      xd_edit_run_inv allocOk acts b h
    exact ⟨b', h1, hcu', by omega, ha'⟩
  · intro t t' hInv hload
    obtain ⟨b'', h1, -, -, -, -, -, -, hsent⟩ :=
      xd_input_buffer_load_from_history_arr_inv true t hInv
    rw [hload] at h1
    obtain rfl := Option.some.inj h1
    exact hsent rfl

/-- Counterexample to the unamended C7: from the freshly reset base
state (which satisfies the well-formedness invariant), inserting `a`
and then pressing Backspace leaves `L = 0` but `B[L] = B[0] = 97`:
the remove loop shifts bytes without rewriting the NUL sentinel. -/
theorem C7_counterexample :
    ABufInv aBase ∧
    (xd_edit_run true [EditAction.printable 97, EditAction.ctrlH]
        aBase).map (fun b' => b'.arr.get? b'.len) = some (some 97) ∧
    some (97 : Nat) ≠ some 0 := by
  refine ⟨⟨by decide, by decide, by decide, by decide, by decide,
    by decide⟩, by decide, by decide⟩

/-- Witness for C7: a concrete insert-then-Enter run from the base
state, with the well-formedness hypothesis discharged concretely. -/
theorem C7_witness :
    ABufInv aBase ∧
    (∃ b', xd_edit_run true [EditAction.printable 97, EditAction.enter]
        aBase = some b' ∧
      b'.cur ≤ b'.len ∧ b'.len < b'.cap ∧ b'.arr.length = b'.cap) :=
  ⟨⟨by decide, by decide, by decide, by decide, by decide, by decide⟩,
    (C7_buffer_invariants_amended true
      [EditAction.printable 97, EditAction.enter] aBase
      ⟨by decide, by decide, by decide, by decide, by decide, by decide⟩).1⟩
